import Mathlib

/-!
# Bracket & Match Orchestration Engine — verification development

Shallow embedding of the tournament bracket engine of this repository
(`bracketGenerator`'s `TournamentBracket` class, the `Match`/`Tournament`
mongoose schemas, and the `POST /api/tournament/:id/match/:matchId/result`
route), together with theorems settling the frozen claims about it.

Modelling conventions, chosen to stay faithful to the JavaScript source:

* Mongo `ObjectId`s are opaque unique tokens; we model a match id as a
  natural number.  The builder assigns the id `Nat.pair r j` to the j-th
  match of round r, which models the freshness/uniqueness of generated
  `ObjectId`s and nothing more.  User ids stay strings (the code always
  compares them after `.toString()`).
* The database rows for one tournament, plus the `TournamentBracket`
  instance's own `status` field and the `Tournament` document's
  `rounds`/`status` fields, form the state (`BracketState`).  `async`
  methods become state transformers; `Match.findById` becomes a lookup in
  the row list and `doc.save()` writes the row back.
* Wall-clock timestamps (`new Date().toISOString()`) are omitted: nothing
  in the engine reads them back.
* `Math.ceil(Math.log2(count))` is embedded as exact ceiling base-2
  logarithm on naturals (`ceilLog2`, proved equal to `Nat.clog 2`);
  IEEE-754 rounding of `Math.log2` is idealized away.
* The random shuffle (`sort(() => 0.5 - Math.random())`) produces some
  permutation of the participant list; the embedding takes the
  post-shuffle order as the input list, and theorems quantify over it.
* The route handler calls `bracket.submitResult(matchId, winnerId, scores)`
  while the class method is declared
  `submitResult(matchId, userId, winnerId, scores, proof)`; the embedding
  reproduces this positional shift exactly (see `postMatchResult`).  The
  value reaching the claimed-winner position can therefore be a scores
  object or `undefined`, so the claimed-winner payload type (`JsWinnerVal`)
  is a sum of a user-id string, a scores object, and `undefined`, with
  JavaScript `===` semantics (`jsStrictEq`): value equality on strings,
  `undefined === undefined`, and reference inequality between score
  objects created by distinct requests.
-/
/-- Exact ceiling base-2 logarithm, the idealization of
`Math.ceil(Math.log2 n)` used by `generateBracket` (structural fuel so
that concrete brackets evaluate in the kernel).  `ceilLog2_eq_clog`
identifies it with `Nat.clog 2`. -/
def ceilLog2Aux : Nat → Nat → Nat
  | 0, _ => 0
  | fuel + 1, n => if n ≤ 1 then 0 else ceilLog2Aux fuel ((n + 1) / 2) + 1

def ceilLog2 (n : Nat) : Nat := ceilLog2Aux n n

/-! ## Data model (from `Match.js`, `Tournament.js` and the bracket class) -/
abbrev UserId := String

abbrev MatchId := Nat

/-- `MatchSchema.status` enum. -/
inductive MatchStatus
  | pending
  | scheduled
  | completed
  | under_review
  | dispute
  | awaiting_confirmation
deriving DecidableEq, Repr

/-- `MatchSchema.nextMatchSlot` enum (`'player1' | 'player2'`). -/
inductive Slot
  | player1
  | player2
deriving DecidableEq, Repr

/-- A scores payload `{ player1: Number, player2: Number }`.  The engine
only stores it, never computes with it, so an integer carrier is used. -/
structure Scores where
  player1 : Int
  player2 : Int
deriving DecidableEq, Repr

/-- The JavaScript value occupying the claimed-winner position of a stored
claim: a user-id string in direct use of the class, or (through the
route's positional-argument shift) a scores object or `undefined`. -/
inductive JsWinnerVal
  | id (s : UserId)
  | scoresObj (sc : Scores)
  | undef
deriving DecidableEq, Repr

/-- JavaScript `===` on claimed-winner values.  Strings compare by value;
`undefined === undefined` holds; two score objects stored by distinct
calls are distinct references, so `===` is `false` between them (and
across kinds). -/
def jsStrictEq : JsWinnerVal → JsWinnerVal → Bool
  | .id a, .id b => a == b
  | .undef, .undef => true
  | _, _ => false

/-- A stored claim (claims-map value in `MatchSchema`); the submission
timestamp is omitted (never read back). -/
structure Claim where
  winnerId : JsWinnerVal
  scores : Option Scores
  proof : Option String
deriving DecidableEq, Repr

/-- `match.result` as written by `finalizeMatch`; timestamp omitted. -/
structure MatchResult where
  winner : JsWinnerVal
  scores : Option Scores
deriving DecidableEq, Repr

/-- One `Match` row.  `claims` models the mongoose `Map` as an
insertion-ordered association list. -/
structure Match where
  id : MatchId
  tournamentId : String
  round : Nat
  player1 : Option UserId
  player2 : Option UserId
  winner : Option UserId
  status : MatchStatus
  nextMatchId : Option MatchId
  nextMatchSlot : Option Slot
  result : Option MatchResult
  claims : List (UserId × Claim)
deriving DecidableEq, Repr

/-- State owned by one tournament's bracket: its `Match` rows in creation
order, the `TournamentBracket` instance's `status` field, and the
`Tournament` document's `rounds` and `status` fields.  (The instance's
`this.matches`/`this.rounds` arrays stay empty in the source — every read
goes through the database, which `matches` models.) -/
structure BracketState where
  tournamentId : String
  matchRows : List Match
  status : String
  tRounds : List Nat
  tStatus : String
deriving DecidableEq, Repr

/-! ## JS `Map` operations on the claims container -/
/-- `claims.get(k)`. -/
def claimsGet (claims : List (UserId × Claim)) (k : UserId) : Option Claim :=
  (claims.find? (fun p => p.1 == k)).map (·.2)

/-- `claims.set(k, v)`: overwrite in place if the key is live, else append. -/
def claimsSet (claims : List (UserId × Claim)) (k : UserId) (v : Claim) :
    List (UserId × Claim) :=
  if (claims.find? (fun p => p.1 == k)).isSome then
    claims.map (fun p => if p.1 == k then (k, v) else p)
  else
    claims ++ [(k, v)]

/-! ## Core operations of `TournamentBracket` -/
/-- `getMatch` / `Match.findById` restricted to this tournament's rows. -/
def getMatch (s : BracketState) (mid : MatchId) : Option Match :=
  s.matchRows.find? (fun m => m.id == mid)

/-- `doc.save()`: write the row back by id. -/
def updateMatch (s : BracketState) (m : Match) : BracketState :=
  { s with matchRows := s.matchRows.map (fun x => if x.id == m.id then m else x) }

/-- The loose comparison `match.player1.id == winnerId` performed by
`advanceWinner` (a string compares equal only to the same string). -/
def looseEqWinner : Option UserId → JsWinnerVal → Bool
  | some p, .id w => p == w
  | _, _ => false

/-- `advanceWinner(matchId, winnerId)`: re-fetches the match, and either
fills the designated slot of the successor (marking it `scheduled` once
both slots are filled) or — for the final — marks the bracket completed. -/
def advanceWinner (s : BracketState) (mid : MatchId) (winnerId : JsWinnerVal) :
    BracketState :=
  match getMatch s mid with
  | none => s
  | some m =>
    match m.nextMatchId with
    | some nid =>
      match getMatch s nid with
      | none => s
      | some nm =>
        let winner : Option UserId :=
          if looseEqWinner m.player1 winnerId then m.player1 else m.player2
        let nm1 :=
          if m.nextMatchSlot == some Slot.player1 then { nm with player1 := winner }
          else if m.nextMatchSlot == some Slot.player2 then { nm with player2 := winner }
          else nm
        let nm2 :=
          if nm1.player1.isSome && nm1.player2.isSome then
            { nm1 with status := MatchStatus.scheduled }
          else nm1
        updateMatch s nm2
    | none => { s with status := "completed" }

/-- `finalizeMatch(match, winnerId, scores)`: sets `result` and
`status = completed` on the in-memory document (note: not the `winner`
field) and advances the winner.  Returns the new state (the document is
saved later, by `submitResult`) and the mutated document. -/
def finalizeMatch (s : BracketState) (m : Match) (winnerId : JsWinnerVal)
    (scores : Option Scores) : BracketState × Match :=
  let m' := { m with result := some ⟨winnerId, scores⟩,
                     status := MatchStatus.completed }
  (advanceWinner s m.id winnerId, m')

/-- `submitResult(matchId, userId, winnerId, scores, proof)`.  Returns
`none` (JS `null`) when the match id is unknown; otherwise records the
claim, evaluates consensus, and saves the match. -/
def submitResult (s : BracketState) (matchId : MatchId) (userId : UserId)
    (winnerId : JsWinnerVal) (scores : Option Scores) (proof : Option String) :
    Option BracketState :=
  match getMatch s matchId with
  | none => none
  | some m =>
    let claims := claimsSet m.claims userId ⟨winnerId, scores, proof⟩
    let claim1 := m.player1.bind (claimsGet claims)
    let claim2 := m.player2.bind (claimsGet claims)
    match claim1, claim2 with
    | some c1, some c2 =>
      if jsStrictEq c1.winnerId c2.winnerId then
        let fm := finalizeMatch s { m with claims := claims } c1.winnerId c1.scores
        some (updateMatch fm.1 fm.2)
      else
        some (updateMatch s { m with claims := claims,
                                     status := MatchStatus.dispute })
    | _, _ =>
      some (updateMatch s { m with claims := claims,
                                   status := MatchStatus.awaiting_confirmation })

/-! ## Bracket generation -/
/-- One iteration of the round-1 creation loop: pair position `i` with
position `size - 1 - i` of the shuffled sequence; a missing opponent
(bye) makes the match `completed` with the present player as winner. -/
def mkRound1Match (tid : String) (shuffled : List UserId) (size i : Nat) : Match :=
  let player1 := shuffled[i]?
  let player2 := shuffled[size - 1 - i]?
  { id := Nat.pair 1 i
    tournamentId := tid
    round := 1
    player1 := player1
    player2 := player2
    winner := if player2.isSome then none else player1
    status := if player2.isSome then MatchStatus.scheduled else MatchStatus.completed
    nextMatchId := none
    nextMatchSlot := none
    result := none
    claims := [] }

/-- A placeholder match for rounds 2 and above. -/
def mkPendingMatch (tid : String) (r j : Nat) : Match :=
  { id := Nat.pair r j
    tournamentId := tid
    round := r
    player1 := none
    player2 := none
    winner := none
    status := MatchStatus.pending
    nextMatchId := none
    nextMatchSlot := none
    result := none
    claims := [] }

/-- Wire `nextMatchId`/`nextMatchSlot` on a predecessor. -/
def linkTo (m : Match) (nid : MatchId) (sl : Slot) : Match :=
  { m with nextMatchId := some nid, nextMatchSlot := some sl }

/-- Inner loop of round construction (`for i += 2`): create the round-`r`
match for each consecutive pair of the previous round and link the pair
into its slots (a trailing unpaired match, which the source guards with
`if (currentRoundMatches[i+1])`, gets only its `player1` link). -/
def buildRound (tid : String) (r : Nat) : List Match → Nat → List Match × List Match
  | [], _ => ([], [])
  | [a], j => ([linkTo a (Nat.pair r j) Slot.player1], [mkPendingMatch tid r j])
  | a :: b :: rest, j =>
    let nid := Nat.pair r j
    let step := buildRound tid r rest (j + 1)
    (linkTo a nid Slot.player1 :: linkTo b nid Slot.player2 :: step.1,
     mkPendingMatch tid r j :: step.2)

/-- Outer loop (`for r = 2..rounds`): `k` remaining rounds to create,
`r` the round being created, accumulating matches in creation order. -/
def buildFrom (tid : String) : Nat → Nat → List Match → List Match
  | 0, _, cur => cur
  | k + 1, r, cur =>
    let step := buildRound tid r cur 0
    step.1 ++ buildFrom tid k (r + 1) step.2

/-- The bye-propagation loop body: matches already `completed` with a
winner (round-1 byes) are run through `advanceWinner`. -/
def byeStep (s : BracketState) (m : Match) : BracketState :=
  if m.status == MatchStatus.completed then
    match m.winner with
    | some w => advanceWinner s m.id (JsWinnerVal.id w)
    | none => s
  else s

/-- `generateBracket`, taking the post-shuffle participant order: builds
round 1, the linked later rounds, then propagates byes over the snapshot
of created matches, and records the round list and `Active` status on the
tournament. -/
def generateBracket (tid : String) (shuffled : List UserId) : BracketState :=
  let count := shuffled.length
  let rounds := ceilLog2 count
  let size := 2 ^ rounds
  let firstRoundMatches :=
    (List.range (size / 2)).map (fun i => mkRound1Match tid shuffled size i)
  let allMatches := buildFrom tid (rounds - 1) 2 firstRoundMatches
  let s0 : BracketState :=
    { tournamentId := tid
      matchRows := allMatches
      status := "active"
      tRounds := (List.range rounds).map (· + 1)
      tStatus := "Active" }
  allMatches.foldl byeStep s0

/-- `getBracketData`: tournament id, rows, and the `Tournament` document's
round list and status. -/
structure BracketSnapshot where
  tournamentId : String
  matchRows : List Match
  rounds : List Nat
  status : String
deriving DecidableEq, Repr

def getBracketData (s : BracketState) : BracketSnapshot :=
  ⟨s.tournamentId, s.matchRows, s.tRounds, s.tStatus⟩

/-! ## The result-submission HTTP route -/
/-- The authenticated requester (`req.user`), as the route reads it. -/
structure ReqUser where
  id : UserId
  role : String
deriving DecidableEq, Repr

inductive RouteError
  | bracketNotFound
  | matchNotFound
  | notAuthorized
  | failedToSubmit
deriving DecidableEq, Repr

/-- The value landing in `submitResult`'s claimed-winner parameter through
the route's positional-argument shift: the request's scores object, or
`undefined` when the body has none. -/
def shiftedScores : Option Scores → JsWinnerVal
  | some sc => JsWinnerVal.scoresObj sc
  | none => JsWinnerVal.undef

/-- `POST /api/tournament/:id/match/:matchId/result` for one bracket:
404 on unknown match; 403 (`Not authorized to submit results`) unless the
requester occupies one of the match's slots or is an admin; then the call
`bracket.submitResult(matchId, winnerId, scores)` — whose three arguments
land in the `matchId`, `userId` and claimed-winner positions of the
five-parameter method, leaving scores and proof `undefined`. -/
def postMatchResult (s : BracketState) (user : ReqUser) (matchId : MatchId)
    (winnerId : UserId) (scores : Option Scores) : Except RouteError BracketState :=
  match getMatch s matchId with
  | none => Except.error RouteError.matchNotFound
  | some m =>
    let isPlayerInMatch := m.player1 == some user.id || m.player2 == some user.id
    let isAdmin := user.role == "admin"
    if !isPlayerInMatch && !isAdmin then Except.error RouteError.notAuthorized
    else
      match submitResult s matchId winnerId (shiftedScores scores) none none with
      | none => Except.error RouteError.failedToSubmit
      | some s' => Except.ok s'

/-! ## Build characterization

The creation loops assign, to the `j`-th pair of round-`r` predecessors,
the round-`(r)` match `Nat.pair r j`, linking the even member into
`player1` and the odd member into `player2`.  The lemmas below put
`generateBracket` into an explicit round-indexed form. -/
/-- Slot assignment by position parity in the pairing loop. -/
def linkSlot (i : Nat) : Slot :=
  if i % 2 = 0 then Slot.player1 else Slot.player2

section BuildShape

variable (tid : String) (shuffled : List UserId)

/-- Number of rounds computed by the builder. -/
def nR : Nat := ceilLog2 shuffled.length

/-- Bracket size `2 ^ rounds`. -/
def bSize : Nat := 2 ^ nR shuffled

/-- Number of round-1 matches, `size / 2`. -/
def bHalf : Nat := bSize shuffled / 2

/-- The round-`ρ` match number `j` as the construction loops leave it
(before bye propagation): a round-1 pairing or a pending placeholder,
linked to its successor `Nat.pair (ρ+1) (j/2)` unless it is the final. -/
def preRow (ρ j : Nat) : Match :=
  let b := if ρ = 1 then mkRound1Match tid shuffled (bSize shuffled) j
           else mkPendingMatch tid ρ j
  if ρ < nR shuffled then linkTo b (Nat.pair (ρ + 1) (j / 2)) (linkSlot j) else b

/-- The slot value that bye number `q` has pushed into its successor once
the bye-propagation loop has processed positions `0..P-1`: the present
player of round-1 match `q` when that match is a bye already processed. -/
def byeFill (P q : Nat) : Option UserId :=
  if q < P ∧ shuffled[bSize shuffled - 1 - q]? = none then shuffled[q]? else none

/-- The round-`ρ` match number `j` after the bye-propagation loop has
processed round-1 positions `0..P-1`: only round-2 rows are affected. -/
def rowAt (P ρ j : Nat) : Match :=
  if ρ = 2 then
    let p1 := byeFill shuffled P (2 * j)
    let p2 := byeFill shuffled P (2 * j + 1)
    { preRow tid shuffled 2 j with
        player1 := p1, player2 := p2,
        status := if p1.isSome && p2.isSome then MatchStatus.scheduled
                  else MatchStatus.pending }
  else preRow tid shuffled ρ j

/-- All rows, round-major, after processing `0..P-1`. -/
def bindShape (P : Nat) : List Match :=
  (List.range (nR shuffled)).flatMap (fun t =>
    (List.range (2 ^ (nR shuffled - 1 - t))).map (fun j => rowAt tid shuffled P (t + 1) j))

/-- Full state after processing `0..P-1`. -/
def stateAt (P : Nat) : BracketState :=
  { tournamentId := tid
    matchRows := bindShape tid shuffled P
    status := "active"
    tRounds := (List.range (nR shuffled)).map (· + 1)
    tStatus := "Active" }

end BuildShape

/-! ## Test scaffolding shared by the concrete witnesses -/
/-- A literal match row for concrete test states. -/
def mkTestMatch (id : Nat) (p1 p2 : Option UserId) (st : MatchStatus)
    (nid : Option MatchId) (sl : Option Slot)
    (cl : List (UserId × Claim)) : Match :=
  { id := id, tournamentId := "t", round := 1, player1 := p1, player2 := p2,
    winner := none, status := st, nextMatchId := nid, nextMatchSlot := sl,
    result := none, claims := cl }

/-- A literal bracket state for concrete test states. -/
def mkTestState (rows : List Match) : BracketState :=
  { tournamentId := "t", matchRows := rows, status := "active",
    tRounds := [1], tStatus := "Active" }

/-- The successor row as `advanceWinner` saves it. -/
def advTarget (m nm : Match) (w : JsWinnerVal) : Match :=
  let winner := if looseEqWinner m.player1 w then m.player1 else m.player2
  let nm1 :=
    if m.nextMatchSlot == some Slot.player1 then { nm with player1 := winner }
    else if m.nextMatchSlot == some Slot.player2 then { nm with player2 := winner }
    else nm
  if nm1.player1.isSome && nm1.player2.isSome then
    { nm1 with status := MatchStatus.scheduled }
  else nm1

/-- Concrete data for the C7 witness. -/
def c7S : BracketState :=
  mkTestState
    [mkTestMatch 1 (some "a") (some "b") MatchStatus.completed
      (some 2) (some Slot.player1) [],
     mkTestMatch 2 none none MatchStatus.pending none none []]

def c7M : Match :=
  mkTestMatch 1 (some "a") (some "b") MatchStatus.completed
    (some 2) (some Slot.player1) []

def c7Nm : Match := mkTestMatch 2 none none MatchStatus.pending none none []

def c7Shuffled : List UserId := ["a", "b", "c", "d", "e"]

/-- Concrete state for C2: `a` has already claimed `a` as winner; the
match awaits `b`'s confirmation and feeds `player1` of match 2. -/
def c2S : BracketState :=
  mkTestState
    [mkTestMatch 1 (some "a") (some "b") MatchStatus.awaiting_confirmation
      (some 2) (some Slot.player1) [("a", ⟨JsWinnerVal.id "a", none, none⟩)],
     mkTestMatch 2 none none MatchStatus.pending none none []]

theorem ceilLog2Aux_eq_clog : ∀ (fuel n : Nat), n ≤ fuel →
    ceilLog2Aux fuel n = Nat.clog 2 n := by
  intro fuel
  induction fuel with
  | zero =>
    intro n hn
    have : n = 0 := Nat.le_zero.mp hn
    subst this
    simp [ceilLog2Aux]
  | succ k ih =>
    intro n hn
    by_cases h1 : n ≤ 1
    · have : Nat.clog 2 n = 0 := Nat.clog_of_right_le_one h1 2
      simp [ceilLog2Aux, h1, this]
    · have h2 : 2 ≤ n := by omega
      have hrec : Nat.clog 2 n = Nat.clog 2 ((n + 1) / 2) + 1 := by
        have := Nat.clog_of_two_le (b := 2) (n := n) (by norm_num) h2
        simpa using this
      have hlt : (n + 1) / 2 ≤ k := by omega
      simp [ceilLog2Aux, h1, ih _ hlt, hrec]

theorem ceilLog2_eq_clog (n : Nat) : ceilLog2 n = Nat.clog 2 n :=
  ceilLog2Aux_eq_clog n n le_rfl

/-! ## Plumbing lemmas: `find?` under pointwise replacement -/
theorem find?_map_pred_preserved {α : Type} (f : α → α) (p : α → Bool) (l : List α)
    (hpred : ∀ x, p (f x) = p x) (hval : ∀ x, p x = true → f x = x) :
    (l.map f).find? p = l.find? p := by
  induction l with
  | nil => rfl
  | cons a rest ih =>
    by_cases h : p a
    · rw [List.map_cons, List.find?_cons_of_pos _ (by rw [hpred]; exact h),
        List.find?_cons_of_pos _ h, hval a h]
    · rw [List.map_cons, List.find?_cons_of_neg _ (by rw [hpred]; simpa using h),
        List.find?_cons_of_neg _ h, ih]

theorem find?_map_replace {α : Type} (f : α → α) (p : α → Bool) (l : List α) (b : α)
    (hpred : ∀ x, p (f x) = p x) (hval : ∀ x, p x = true → f x = b) :
    (l.map f).find? p = (l.find? p).map (fun _ => b) := by
  induction l with
  | nil => rfl
  | cons a rest ih =>
    by_cases h : p a
    · rw [List.map_cons, List.find?_cons_of_pos _ (by rw [hpred]; exact h),
        List.find?_cons_of_pos _ h, hval a h, Option.map_some']
    · rw [List.map_cons, List.find?_cons_of_neg _ (by rw [hpred]; simpa using h),
        List.find?_cons_of_neg _ h, ih]

/-! ## Plumbing lemmas: the claims map -/
theorem claimsGet_claimsSet_self (l : List (UserId × Claim)) (k : UserId) (v : Claim) :
    claimsGet (claimsSet l k v) k = some v := by
  unfold claimsSet claimsGet
  by_cases hmem : (l.find? (fun p => p.1 == k)).isSome
  · rw [if_pos hmem,
      find?_map_replace _ _ _ (k, v)
        (fun x => by by_cases hx : x.1 == k <;> simp [hx])
        (fun x hx => by simp [hx])]
    obtain ⟨a, ha⟩ := Option.isSome_iff_exists.mp hmem
    simp [ha]
  · rw [if_neg hmem]
    have hnone : l.find? (fun p => p.1 == k) = none :=
      Option.not_isSome_iff_eq_none.mp hmem
    simp [List.find?_append, hnone]

theorem claimsGet_claimsSet_other (l : List (UserId × Claim)) (k k' : UserId)
    (v : Claim) (hne : k' ≠ k) :
    claimsGet (claimsSet l k v) k' = claimsGet l k' := by
  have hkk : ((k : UserId) == k') = false := by
    simp only [beq_eq_false_iff_ne, ne_eq]
    exact fun h => hne h.symm
  unfold claimsSet claimsGet
  by_cases hmem : (l.find? (fun p => p.1 == k)).isSome
  · rw [if_pos hmem,
      find?_map_pred_preserved _ _ _
        (fun x => by
          by_cases hx : x.1 == k
          · have : x.1 = k := by simpa using hx
            simp [hx, this, hkk]
          · simp [hx])
        (fun x hx => by
          have hxk : x.1 = k' := by simpa using hx
          have : (x.1 == k) = false := by simp [hxk]; exact hne
          simp [this])]
  · rw [if_neg hmem]
    simp [List.find?_append, hkk]

theorem claimsSet_length (l : List (UserId × Claim)) (k : UserId) (v : Claim) :
    (claimsSet l k v).length =
      if (claimsGet l k).isSome then l.length else l.length + 1 := by
  unfold claimsSet claimsGet
  by_cases hmem : (l.find? (fun p => p.1 == k)).isSome
  · simp [hmem]
  · simp [hmem]

/-! ## Plumbing lemmas: row lookup and save -/
theorem getMatch_eq_id {s : BracketState} {mid : MatchId} {m : Match}
    (h : getMatch s mid = some m) : m.id = mid := by
  have := List.find?_some h
  simpa using this

theorem mem_of_getMatch {s : BracketState} {mid : MatchId} {m : Match}
    (h : getMatch s mid = some m) : m ∈ s.matchRows :=
  List.mem_of_find?_eq_some h

theorem getMatch_updateMatch (s : BracketState) (m' : Match) (q : MatchId) :
    getMatch (updateMatch s m') q =
      if q = m'.id then (getMatch s q).map (fun _ => m') else getMatch s q := by
  unfold getMatch updateMatch
  by_cases hq : q = m'.id
  · subst hq
    rw [if_pos rfl]
    exact find?_map_replace _ _ _ m'
      (fun x => by by_cases hx : x.id == m'.id <;> simp [hx])
      (fun x hx => by simp [hx])
  · rw [if_neg hq]
    exact find?_map_pred_preserved _ _ _
      (fun x => by
        by_cases hx : x.id == m'.id
        · have hxe : x.id = m'.id := by simpa using hx
          have h1 : (m'.id == q) = false := by
            simp only [beq_eq_false_iff_ne, ne_eq]
            exact fun h => hq h.symm
          have h2 : (x.id == q) = false := by
            rw [hxe]
            exact h1
          simp [hx, h1, h2]
        · simp [hx])
      (fun x hx => by
        have hxe : x.id = q := by simpa using hx
        have : (x.id == m'.id) = false := by
          simp only [beq_eq_false_iff_ne, ne_eq, hxe]
          exact hq
        simp [this])

theorem updateMatch_status (s : BracketState) (m' : Match) :
    (updateMatch s m').status = s.status := rfl

theorem updateMatch_length (s : BracketState) (m' : Match) :
    (updateMatch s m').matchRows.length = s.matchRows.length := by
  simp [updateMatch]

/-! ## Plumbing lemmas: `advanceWinner` -/
theorem advanceWinner_final {s : BracketState} {mid : MatchId} {m : Match}
    (w : JsWinnerVal) (hm : getMatch s mid = some m) (hnext : m.nextMatchId = none) :
    advanceWinner s mid w = { s with status := "completed" } := by
  simp [advanceWinner, hm, hnext]

theorem advanceWinner_status_of_next {s : BracketState} {mid : MatchId} {m : Match}
    {nid : MatchId} (w : JsWinnerVal) (hm : getMatch s mid = some m)
    (hnext : m.nextMatchId = some nid) :
    (advanceWinner s mid w).status = s.status := by
  cases hn : getMatch s nid <;>
    simp [advanceWinner, hm, hnext, hn, updateMatch_status]

theorem advanceWinner_none {s : BracketState} {mid : MatchId}
    (w : JsWinnerVal) (hm : getMatch s mid = none) :
    advanceWinner s mid w = s := by
  simp [advanceWinner, hm]

/-! ## Plumbing lemmas: `submitResult` branches -/
theorem submitResult_dispute {s : BracketState} {mid : MatchId}
    {uid : UserId} {w : JsWinnerVal} {sc : Option Scores} {pf : Option String}
    {m : Match} {p1 p2 : UserId} {c1 c2 : Claim}
    (hm : getMatch s mid = some m)
    (hp1 : m.player1 = some p1) (hp2 : m.player2 = some p2)
    (hc1 : claimsGet (claimsSet m.claims uid ⟨w, sc, pf⟩) p1 = some c1)
    (hc2 : claimsGet (claimsSet m.claims uid ⟨w, sc, pf⟩) p2 = some c2)
    (hdis : jsStrictEq c1.winnerId c2.winnerId = false) :
    submitResult s mid uid w sc pf =
      some (updateMatch s
        { m with claims := claimsSet m.claims uid ⟨w, sc, pf⟩,
                 status := MatchStatus.dispute }) := by
  simp [submitResult, hm, hp1, hp2, hc1, hc2, hdis]

theorem submitResult_consensus {s : BracketState} {mid : MatchId}
    {uid : UserId} {w : JsWinnerVal} {sc : Option Scores} {pf : Option String}
    {m : Match} {p1 p2 : UserId} {c1 c2 : Claim}
    (hm : getMatch s mid = some m)
    (hp1 : m.player1 = some p1) (hp2 : m.player2 = some p2)
    (hc1 : claimsGet (claimsSet m.claims uid ⟨w, sc, pf⟩) p1 = some c1)
    (hc2 : claimsGet (claimsSet m.claims uid ⟨w, sc, pf⟩) p2 = some c2)
    (hagr : jsStrictEq c1.winnerId c2.winnerId = true) :
    submitResult s mid uid w sc pf =
      some (updateMatch (advanceWinner s m.id c1.winnerId)
        { m with claims := claimsSet m.claims uid ⟨w, sc, pf⟩,
                 result := some ⟨c1.winnerId, c1.scores⟩,
                 status := MatchStatus.completed }) := by
  simp [submitResult, hm, hp1, hp2, hc1, hc2, hagr, finalizeMatch]

theorem submitResult_awaiting {s : BracketState} {mid : MatchId}
    {uid : UserId} {w : JsWinnerVal} {sc : Option Scores} {pf : Option String}
    {m : Match}
    (hm : getMatch s mid = some m)
    (hone : m.player1.bind (claimsGet (claimsSet m.claims uid ⟨w, sc, pf⟩)) = none ∨
            m.player2.bind (claimsGet (claimsSet m.claims uid ⟨w, sc, pf⟩)) = none) :
    submitResult s mid uid w sc pf =
      some (updateMatch s
        { m with claims := claimsSet m.claims uid ⟨w, sc, pf⟩,
                 status := MatchStatus.awaiting_confirmation }) := by
  unfold submitResult
  cases hcl1 : m.player1.bind (claimsGet (claimsSet m.claims uid ⟨w, sc, pf⟩)) with
  | none => simp [hm, hcl1]
  | some c1 =>
    cases hcl2 : m.player2.bind (claimsGet (claimsSet m.claims uid ⟨w, sc, pf⟩)) with
    | none => simp [hm, hcl1, hcl2]
    | some c2 =>
      rcases hone with h | h
      · rw [hcl1] at h; cases h
      · rw [hcl2] at h; cases h

theorem linkSlot_add_two (i : Nat) : linkSlot (i + 2) = linkSlot i := by
  simp [linkSlot, Nat.add_mod_right]

theorem range_two_mul_succ (m : Nat) :
    List.range (2 * (m + 1)) = 0 :: 1 :: (List.range (2 * m)).map (fun i => i + 2) := by
  have h : 2 * (m + 1) = (2 * m + 1) + 1 := by ring
  rw [h, List.range_succ_eq_map, List.range_succ_eq_map, List.map_cons, List.map_map]
  rfl

theorem buildRound_eq (tid : String) (r : Nat) :
    ∀ (m : Nat) (g : Nat → Match) (j : Nat),
    buildRound tid r ((List.range (2 * m)).map g) j =
      ((List.range (2 * m)).map
        (fun i => linkTo (g i) (Nat.pair r (j + i / 2)) (linkSlot i)),
       (List.range m).map (fun q => mkPendingMatch tid r (j + q))) := by
  intro m
  induction m with
  | zero => intro g j; rfl
  | succ m ih =>
    intro g j
    rw [range_two_mul_succ]
    simp only [List.map_cons, List.map_map]
    show buildRound tid r (g 0 :: g 1 :: _) j = _
    rw [buildRound, ih]
    have hr1 : List.range (m + 1) = 0 :: (List.range m).map (· + 1) := by
      rw [List.range_succ_eq_map]
    rw [hr1]
    simp only [List.map_cons, List.map_map]
    refine congrArg₂ Prod.mk ?_ ?_
    · refine congrArg₂ List.cons ?_ (congrArg₂ List.cons ?_ ?_)
      · simp [linkSlot]
      · simp [linkSlot]
      · apply List.map_congr_left
        intro i _
        simp only [Function.comp]
        have hdiv : (i + 2) / 2 = i / 2 + 1 := by omega
        rw [linkSlot_add_two, hdiv,
          show j + 1 + i / 2 = j + (i / 2 + 1) from by ring]
    · refine congrArg₂ List.cons ?_ ?_
      · norm_num
      · apply List.map_congr_left
        intro q _
        simp only [Function.comp]
        rw [show j + 1 + q = j + (q + 1) from by ring]

theorem flatMap_congr_left {α β : Type} {l : List α} {f g : α → List β}
    (h : ∀ a ∈ l, f a = g a) : l.flatMap f = l.flatMap g := by
  induction l with
  | nil => rfl
  | cons a rest ih =>
    rw [List.flatMap_cons, List.flatMap_cons, h a (by simp),
      ih (fun x hx => h x (by simp [hx]))]

theorem buildFrom_eq (tid : String) :
    ∀ (k r : Nat) (g : Nat → Match),
    buildFrom tid k r ((List.range (2 ^ k)).map g) =
      (List.range (k + 1)).flatMap (fun t =>
        (List.range (2 ^ (k - t))).map (fun j =>
          if t < k then
            linkTo (if t = 0 then g j else mkPendingMatch tid (r + t - 1) j)
              (Nat.pair (r + t) (j / 2)) (linkSlot j)
          else
            (if t = 0 then g j else mkPendingMatch tid (r + t - 1) j))) := by
  intro k
  induction k with
  | zero =>
    intro r g
    show List.map g (List.range 1) = _
    rw [show List.range 1 = [0] from rfl, List.flatMap_cons, List.flatMap_nil,
      List.append_nil]
    rfl
  | succ k ih =>
    intro r g
    have hp : (2:Nat) ^ (k + 1) = 2 * 2 ^ k := by rw [pow_succ]; ring
    rw [hp, buildFrom, buildRound_eq]
    simp only [Nat.zero_add]
    rw [ih (r + 1) (fun q => mkPendingMatch tid r q)]
    rw [List.range_succ_eq_map (k + 1), List.flatMap_cons, List.flatMap_map]
    refine congrArg₂ (· ++ ·) ?_ ?_
    · have h1 : k + 1 - 0 = k + 1 := rfl
      simp only [h1, Nat.lt_irrefl, Nat.zero_lt_succ, if_true, Nat.add_zero, hp]
    · apply flatMap_congr_left
      intro t _
      have e1 : k + 1 - (t + 1) = k - t := by omega
      have e2 : (t + 1 < k + 1) = (t < k) := by
        simp [Nat.succ_lt_succ_iff]
      have e3 : r + 1 + t = r + (t + 1) := by ring
      simp only [Function.comp, e1, Nat.succ_lt_succ_iff]
      apply List.map_congr_left
      intro j _
      by_cases ht : t < k
      · rw [if_pos ht, if_pos ht]
        by_cases ht0 : t = 0
        · subst ht0
          simp
        · rw [if_neg ht0, if_neg (by simp)]
          have : r + 1 + t - 1 = r + (t + 1) - 1 := by omega
          rw [this, e3]
      · rw [if_neg ht, if_neg ht]
        by_cases ht0 : t = 0
        · subst ht0
          simp
        · rw [if_neg ht0, if_neg (by simp)]
          have : r + 1 + t - 1 = r + (t + 1) - 1 := by omega
          rw [this]

/-! ### Arithmetic facts about the bracket dimensions -/
theorem nR_pos (shuffled : List UserId) (h2 : 2 ≤ shuffled.length) :
    1 ≤ nR shuffled := by
  unfold nR
  rw [ceilLog2_eq_clog]
  exact Nat.clog_pos (by norm_num) h2

theorem len_le_bSize (shuffled : List UserId) : shuffled.length ≤ bSize shuffled := by
  unfold bSize nR
  rw [ceilLog2_eq_clog]
  exact Nat.le_pow_clog (by norm_num) _

theorem bHalf_eq (shuffled : List UserId) (h2 : 2 ≤ shuffled.length) :
    bHalf shuffled = 2 ^ (nR shuffled - 1) := by
  unfold bHalf
  have h1 := nR_pos shuffled h2
  unfold bSize
  have : 2 ^ nR shuffled = 2 * 2 ^ (nR shuffled - 1) := by
    conv_lhs => rw [show nR shuffled = (nR shuffled - 1) + 1 from by omega]
    rw [pow_succ]; ring
  rw [this]
  omega

theorem bHalf_lt_len (shuffled : List UserId) (h2 : 2 ≤ shuffled.length) :
    bHalf shuffled < shuffled.length := by
  rw [bHalf_eq shuffled h2]
  have := Nat.pow_pred_clog_lt_self (b := 2) (by norm_num) (x := shuffled.length) (by omega)
  unfold nR
  rw [ceilLog2_eq_clog]
  exact this

theorem nR_ge_two_of_bye (shuffled : List UserId) (h2 : 2 ≤ shuffled.length)
    (q : Nat) (hbye : shuffled[bSize shuffled - 1 - q]? = none) :
    2 ≤ nR shuffled := by
  have hlen : shuffled.length ≤ bSize shuffled - 1 - q :=
    List.getElem?_eq_none_iff.mp hbye
  have hle := len_le_bSize shuffled
  by_contra hlt
  have h1 : nR shuffled ≤ 1 := by omega
  have : bSize shuffled ≤ 2 := by
    unfold bSize
    calc 2 ^ nR shuffled ≤ 2 ^ 1 := Nat.pow_le_pow_right (by norm_num) h1
    _ = 2 := by norm_num
  omega

/-! ### Structural facts about the rows -/
theorem rowAt_id (tid : String) (shuffled : List UserId) (P ρ j : Nat) :
    (rowAt tid shuffled P ρ j).id = Nat.pair ρ j := by
  unfold rowAt preRow linkTo mkRound1Match mkPendingMatch
  split_ifs <;> simp_all

theorem rowAt_round (tid : String) (shuffled : List UserId) (P ρ j : Nat) :
    (rowAt tid shuffled P ρ j).round = ρ := by
  unfold rowAt preRow linkTo mkRound1Match mkPendingMatch
  split_ifs <;> simp_all

theorem rowAt_of_ne_two (tid : String) (shuffled : List UserId) (P ρ j : Nat)
    (h : ρ ≠ 2) : rowAt tid shuffled P ρ j = preRow tid shuffled ρ j := by
  simp [rowAt, h]

theorem byeFill_zero (shuffled : List UserId) (q : Nat) :
    byeFill shuffled 0 q = none := by
  simp [byeFill]

theorem rowAt_zero (tid : String) (shuffled : List UserId) (ρ j : Nat) :
    rowAt tid shuffled 0 ρ j = preRow tid shuffled ρ j := by
  by_cases h : ρ = 2
  · subst h
    unfold rowAt
    rw [if_pos rfl, byeFill_zero, byeFill_zero]
    unfold preRow linkTo mkPendingMatch
    split_ifs <;> first | rfl | omega
  · exact rowAt_of_ne_two tid shuffled 0 ρ j h

/-! ### Row lookup in the round-major shape -/
theorem find?_map_range_pair (ρp ρ j : Nat) (G : Nat → Match)
    (hid : ∀ q, (G q).id = Nat.pair ρp q) :
    ∀ mlen : Nat,
    ((List.range mlen).map G).find? (fun m => m.id == Nat.pair ρ j) =
      if ρp = ρ ∧ j < mlen then some (G j) else none := by
  intro mlen
  induction mlen with
  | zero => simp
  | succ m ihm =>
    rw [List.range_succ, List.map_append, List.find?_append, ihm]
    by_cases hρ : ρp = ρ
    · by_cases hjm : j < m
      · rw [if_pos ⟨hρ, hjm⟩, if_pos ⟨hρ, by omega⟩]
        rfl
      · rw [if_neg (by tauto)]
        by_cases hjem : j = m
        · subst hjem
          rw [if_pos ⟨hρ, by omega⟩]
          have hpred : ((G j).id == Nat.pair ρ j) = true := by
            rw [hid, hρ]
            simp
          simp [hpred]
        · rw [if_neg (by omega)]
          have hpred : ((G m).id == Nat.pair ρ j) = false := by
            rw [hid]
            simp [Nat.pair_eq_pair]
            omega
          simp [hpred]
    · rw [if_neg (by tauto), if_neg (by tauto)]
      have hpred : ((G m).id == Nat.pair ρ j) = false := by
        rw [hid]
        simp [Nat.pair_eq_pair]
        tauto
      simp [hpred]

theorem find?_flatMap_rounds_none (RT : Nat) (F : Nat → Nat → Match)
    (len : Nat → Nat) (hid : ∀ t q, (F t q).id = Nat.pair (t + 1) q)
    (ρ j : Nat) (hgt : RT < ρ) :
    ((List.range RT).flatMap (fun t => (List.range (len t)).map (F t))).find?
      (fun m => m.id == Nat.pair ρ j) = none := by
  rw [List.find?_eq_none]
  intro x hx
  rw [List.mem_flatMap] at hx
  obtain ⟨t, ht, hmem⟩ := hx
  rw [List.mem_map] at hmem
  obtain ⟨q, _, rfl⟩ := hmem
  rw [List.mem_range] at ht
  rw [hid]
  simp [Nat.pair_eq_pair]
  omega

theorem find?_flatMap_rounds (F : Nat → Nat → Match) (len : Nat → Nat)
    (hid : ∀ t q, (F t q).id = Nat.pair (t + 1) q) :
    ∀ (RT ρ j : Nat), 1 ≤ ρ → ρ ≤ RT → j < len (ρ - 1) →
    ((List.range RT).flatMap (fun t => (List.range (len t)).map (F t))).find?
      (fun m => m.id == Nat.pair ρ j) = some (F (ρ - 1) j) := by
  intro RT
  induction RT with
  | zero => intro ρ j h1 h2; omega
  | succ R ihR =>
    intro ρ j h1 h2 hj
    rw [List.range_succ, List.flatMap_append, List.find?_append]
    by_cases hρ : ρ ≤ R
    · rw [ihR ρ j h1 hρ hj]
      rfl
    · have hρe : ρ = R + 1 := by omega
      rw [find?_flatMap_rounds_none R F len hid ρ j (by omega)]
      rw [Option.none_or]
      have : List.flatMap [R] (fun t => (List.range (len t)).map (F t)) =
          (List.range (len R)).map (F R) := by
        simp
      have hR : ρ - 1 = R := by omega
      rw [hR] at hj
      rw [this, find?_map_range_pair (R + 1) ρ j (F R) (fun q => hid R q)]
      rw [if_pos ⟨by omega, hj⟩, hR]

theorem getMatch_stateAt (tid : String) (shuffled : List UserId) (P ρ j : Nat)
    (h1 : 1 ≤ ρ) (h2 : ρ ≤ nR shuffled)
    (hj : j < 2 ^ (nR shuffled - 1 - (ρ - 1))) :
    getMatch (stateAt tid shuffled P) (Nat.pair ρ j) =
      some (rowAt tid shuffled P ρ j) := by
  unfold getMatch stateAt bindShape
  have h0 := find?_flatMap_rounds (fun t q => rowAt tid shuffled P (t + 1) q)
    (fun t => 2 ^ (nR shuffled - 1 - t))
    (fun t q => rowAt_id tid shuffled P (t + 1) q)
    (nR shuffled) ρ j h1 h2 hj
  have h3 : List.find? (fun m => m.id == Nat.pair ρ j)
      ((List.range (nR shuffled)).flatMap fun t =>
        List.map (fun q => rowAt tid shuffled P (t + 1) q)
          (List.range (2 ^ (nR shuffled - 1 - t)))) =
      some (rowAt tid shuffled P (ρ - 1 + 1) j) := h0
  have hρ : ρ - 1 + 1 = ρ := by omega
  rw [hρ] at h3
  exact h3

/-! ### The construction loops produce the round-major shape -/
theorem build_list_eq (tid : String) (shuffled : List UserId)
    (h2 : 2 ≤ shuffled.length) :
    buildFrom tid (nR shuffled - 1) 2
      ((List.range (bSize shuffled / 2)).map
        (fun i => mkRound1Match tid shuffled (bSize shuffled) i)) =
      bindShape tid shuffled 0 := by
  have hnRp := nR_pos shuffled h2
  have hk : bSize shuffled / 2 = 2 ^ (nR shuffled - 1) := bHalf_eq shuffled h2
  rw [hk, buildFrom_eq tid (nR shuffled - 1) 2]
  unfold bindShape
  have hnR : nR shuffled - 1 + 1 = nR shuffled := by omega
  rw [hnR]
  apply flatMap_congr_left
  intro t ht
  rw [List.mem_range] at ht
  apply List.map_congr_left
  intro j hj
  rw [rowAt_zero]
  simp only [preRow]
  have e1 : 2 + t = t + 1 + 1 := by ring
  have e2 : 2 + t - 1 = t + 1 := by omega
  by_cases htk : t < nR shuffled - 1
  · rw [if_pos htk, if_pos (show t + 1 < nR shuffled by omega)]
    congr 1
    · by_cases ht0 : t = 0
      · subst ht0
        rw [if_pos rfl, if_pos rfl]
      · rw [if_neg ht0, if_neg (by omega), e2]
    · rw [e1]
  · rw [if_neg htk, if_neg (show ¬ (t + 1 < nR shuffled) by omega)]
    by_cases ht0 : t = 0
    · subst ht0
      rw [if_pos rfl, if_pos rfl]
    · rw [if_neg ht0, if_neg (by omega), e2]

/-! ### Bye-propagation: step lemmas -/
theorem byeFill_of_ge (shuffled : List UserId) (P q : Nat) (h : P ≤ q) :
    byeFill shuffled P q = none := by
  unfold byeFill
  rw [if_neg]
  rintro ⟨h1, -⟩
  omega

theorem byeFill_succ_of_ne (shuffled : List UserId) (P q : Nat) (h : q ≠ P) :
    byeFill shuffled (P + 1) q = byeFill shuffled P q := by
  unfold byeFill
  have hiff : (q < P + 1 ∧ shuffled[bSize shuffled - 1 - q]? = none) ↔
      (q < P ∧ shuffled[bSize shuffled - 1 - q]? = none) := by
    constructor
    · rintro ⟨h1, hc⟩
      exact ⟨by omega, hc⟩
    · rintro ⟨h1, hc⟩
      exact ⟨by omega, hc⟩
  rw [if_congr hiff rfl rfl]

theorem byeFill_succ_self (shuffled : List UserId) (P : Nat)
    (hbye : shuffled[bSize shuffled - 1 - P]? = none) :
    byeFill shuffled (P + 1) P = shuffled[P]? := by
  unfold byeFill
  rw [if_pos ⟨by omega, hbye⟩]

theorem byeFill_succ_of_not_bye (shuffled : List UserId) (P q : Nat)
    (h : shuffled[bSize shuffled - 1 - P]? ≠ none) :
    byeFill shuffled (P + 1) q = byeFill shuffled P q := by
  by_cases hq : q = P
  · subst hq
    unfold byeFill
    rw [if_neg (by rintro ⟨-, hc⟩; exact h hc), if_neg (by rintro ⟨-, hc⟩; exact h hc)]
  · exact byeFill_succ_of_ne shuffled P q hq

theorem rowAt_succ_ne (tid : String) (shuffled : List UserId) (P ρ j : Nat)
    (h : ρ ≠ 2 ∨ j ≠ P / 2) :
    rowAt tid shuffled (P + 1) ρ j = rowAt tid shuffled P ρ j := by
  by_cases hρ : ρ = 2
  · subst hρ
    have hj : j ≠ P / 2 := by tauto
    unfold rowAt
    rw [if_pos rfl, if_pos rfl,
      byeFill_succ_of_ne shuffled P (2 * j) (by omega),
      byeFill_succ_of_ne shuffled P (2 * j + 1) (by omega)]
  · rw [rowAt_of_ne_two _ _ _ _ _ hρ, rowAt_of_ne_two _ _ _ _ _ hρ]

theorem rowAt_succ_of_not_bye (tid : String) (shuffled : List UserId) (P ρ j : Nat)
    (h : shuffled[bSize shuffled - 1 - P]? ≠ none) :
    rowAt tid shuffled (P + 1) ρ j = rowAt tid shuffled P ρ j := by
  by_cases hρ : ρ = 2
  · subst hρ
    unfold rowAt
    rw [if_pos rfl, if_pos rfl,
      byeFill_succ_of_not_bye shuffled P (2 * j) h,
      byeFill_succ_of_not_bye shuffled P (2 * j + 1) h]
  · rw [rowAt_of_ne_two _ _ _ _ _ hρ, rowAt_of_ne_two _ _ _ _ _ hρ]

theorem stateAt_succ_of_not_bye (tid : String) (shuffled : List UserId) (P : Nat)
    (h : shuffled[bSize shuffled - 1 - P]? ≠ none) :
    stateAt tid shuffled (P + 1) = stateAt tid shuffled P := by
  unfold stateAt bindShape
  congr 1
  apply flatMap_congr_left
  intro t _
  apply List.map_congr_left
  intro j _
  exact rowAt_succ_of_not_bye tid shuffled P (t + 1) j h

theorem byeStep_skip (s : BracketState) (m : Match)
    (h : m.status ≠ MatchStatus.completed ∨ m.winner = none) : byeStep s m = s := by
  rcases h with h | h
  · simp [byeStep, h]
  · by_cases hs : m.status == MatchStatus.completed <;> simp [byeStep, h, hs]

theorem foldl_byeStep_skip (L : List Match) (s : BracketState)
    (h : ∀ m ∈ L, m.status ≠ MatchStatus.completed ∨ m.winner = none) :
    L.foldl byeStep s = s := by
  induction L generalizing s with
  | nil => rfl
  | cons a rest ih =>
    rw [List.foldl_cons, byeStep_skip s a (h a (by simp)),
      ih s (fun m hm => h m (by simp [hm]))]

theorem rowAt_status_ne_completed (tid : String) (shuffled : List UserId)
    (P ρ j : Nat) (hρ : 2 ≤ ρ) :
    (rowAt tid shuffled P ρ j).status ≠ MatchStatus.completed := by
  by_cases hρ2 : ρ = 2
  · subst hρ2
    show ¬ (if (byeFill shuffled P (2 * j)).isSome &&
        (byeFill shuffled P (2 * j + 1)).isSome then MatchStatus.scheduled
      else MatchStatus.pending) = MatchStatus.completed
    cases hb : (byeFill shuffled P (2 * j)).isSome &&
        (byeFill shuffled P (2 * j + 1)).isSome <;> simp [hb]
  · rw [rowAt_of_ne_two _ _ _ _ _ hρ2]
    unfold preRow linkTo mkPendingMatch
    rw [if_neg (show ¬ ρ = 1 by omega)]
    split_ifs <;> simp

theorem rowAt_one_linked (tid : String) (shuffled : List UserId) (P j : Nat)
    (h : 1 < nR shuffled) :
    rowAt tid shuffled P 1 j =
      linkTo (mkRound1Match tid shuffled (bSize shuffled) j)
        (Nat.pair 2 (j / 2)) (linkSlot j) := by
  rw [rowAt_of_ne_two _ _ _ _ _ (by omega)]
  simp [preRow, h]

theorem advanceWinner_step {s : BracketState} {mid nid : MatchId} {m nm : Match}
    (w : JsWinnerVal) (hm : getMatch s mid = some m)
    (hnext : m.nextMatchId = some nid) (hnm : getMatch s nid = some nm) :
    advanceWinner s mid w =
      updateMatch s (
        let winner := if looseEqWinner m.player1 w then m.player1 else m.player2
        let nm1 :=
          if m.nextMatchSlot == some Slot.player1 then { nm with player1 := winner }
          else if m.nextMatchSlot == some Slot.player2 then { nm with player2 := winner }
          else nm
        if nm1.player1.isSome && nm1.player2.isSome then
          { nm1 with status := MatchStatus.scheduled }
        else nm1) := by
  simp [advanceWinner, hm, hnext, hnm]

theorem rowAt_two_even_P (tid : String) (shuffled : List UserId) (P : Nat)
    (hp : P % 2 = 0) :
    rowAt tid shuffled P 2 (P / 2) =
      { preRow tid shuffled 2 (P / 2) with
          player1 := none, player2 := none, status := MatchStatus.pending } := by
  unfold rowAt
  rw [if_pos rfl]
  have e1 : 2 * (P / 2) = P := by omega
  rw [e1, byeFill_of_ge shuffled P P le_rfl,
    byeFill_of_ge shuffled P (P + 1) (by omega)]
  rfl

theorem rowAt_two_even_succ (tid : String) (shuffled : List UserId) (P : Nat)
    (hp : P % 2 = 0) (hbye : shuffled[bSize shuffled - 1 - P]? = none) :
    rowAt tid shuffled (P + 1) 2 (P / 2) =
      { preRow tid shuffled 2 (P / 2) with
          player1 := shuffled[P]?, player2 := none,
          status := MatchStatus.pending } := by
  unfold rowAt
  rw [if_pos rfl]
  have e1 : 2 * (P / 2) = P := by omega
  rw [e1, byeFill_succ_self shuffled P hbye,
    byeFill_of_ge shuffled (P + 1) (P + 1) le_rfl]
  cases hx : shuffled[P]? <;> simp [hx]

theorem rowAt_two_odd_P (tid : String) (shuffled : List UserId) (P : Nat)
    (hp : P % 2 = 1) :
    rowAt tid shuffled P 2 (P / 2) =
      { preRow tid shuffled 2 (P / 2) with
          player1 := byeFill shuffled P (P - 1), player2 := none,
          status := MatchStatus.pending } := by
  unfold rowAt
  rw [if_pos rfl]
  have e1 : 2 * (P / 2) = P - 1 := by omega
  have e2 : 2 * (P / 2) + 1 = P := by omega
  rw [e2, e1, byeFill_of_ge shuffled P P le_rfl]
  cases hx : (byeFill shuffled P (P - 1)).isSome <;> simp [hx]

theorem rowAt_two_odd_succ (tid : String) (shuffled : List UserId) (P : Nat)
    (hp : P % 2 = 1) (hbye : shuffled[bSize shuffled - 1 - P]? = none) :
    rowAt tid shuffled (P + 1) 2 (P / 2) =
      { preRow tid shuffled 2 (P / 2) with
          player1 := byeFill shuffled P (P - 1), player2 := shuffled[P]?,
          status := if (byeFill shuffled P (P - 1)).isSome && (shuffled[P]?).isSome
                    then MatchStatus.scheduled else MatchStatus.pending } := by
  unfold rowAt
  rw [if_pos rfl]
  have e1 : 2 * (P / 2) = P - 1 := by omega
  have e2 : 2 * (P / 2) + 1 = P := by omega
  rw [e2, e1, byeFill_succ_self shuffled P hbye,
    byeFill_succ_of_ne shuffled P (P - 1) (by omega)]

theorem updateMatch_stateAt_succ (tid : String) (shuffled : List UserId) (P : Nat) :
    updateMatch (stateAt tid shuffled P) (rowAt tid shuffled (P + 1) 2 (P / 2)) =
      stateAt tid shuffled (P + 1) := by
  unfold updateMatch stateAt bindShape
  congr 1
  rw [List.map_flatMap]
  apply flatMap_congr_left
  intro t ht
  rw [List.map_map]
  apply List.map_congr_left
  intro j hj
  simp only [Function.comp]
  rw [rowAt_id tid shuffled P (t + 1) j, rowAt_id tid shuffled (P + 1) 2 (P / 2)]
  by_cases heq : t + 1 = 2 ∧ j = P / 2
  · obtain ⟨ht2, hj2⟩ := heq
    have hb : (Nat.pair (t + 1) j == Nat.pair 2 (P / 2)) = true := by
      rw [ht2, hj2]
      simp
    rw [if_pos hb, ht2, hj2]
  · have hb : (Nat.pair (t + 1) j == Nat.pair 2 (P / 2)) = false := by
      rw [beq_eq_false_iff_ne, ne_eq, Nat.pair_eq_pair]
      tauto
    rw [if_neg (by simp [hb])]
    exact (rowAt_succ_ne tid shuffled P (t + 1) j (by tauto)).symm

theorem bye_step_eq (tid : String) (shuffled : List UserId)
    (h2 : 2 ≤ shuffled.length) (P : Nat) (hP : P < bHalf shuffled)
    (hbye : shuffled[bSize shuffled - 1 - P]? = none) :
    byeStep (stateAt tid shuffled P) (rowAt tid shuffled 0 1 P) =
      stateAt tid shuffled (P + 1) := by
  have hnR2 : 2 ≤ nR shuffled := nR_ge_two_of_bye shuffled h2 P hbye
  have hPn : P < shuffled.length := Nat.lt_trans hP (bHalf_lt_len shuffled h2)
  have hw : shuffled[P]? = some (shuffled.get ⟨P, hPn⟩) := by
    rw [List.getElem?_eq_getElem hPn]
    rfl
  set w := shuffled.get ⟨P, hPn⟩ with hwdef
  have hrow1 := rowAt_one_linked tid shuffled 0 P (by omega)
  have hrowP := rowAt_one_linked tid shuffled P P (by omega)
  have hstep : byeStep (stateAt tid shuffled P) (rowAt tid shuffled 0 1 P) =
      advanceWinner (stateAt tid shuffled P) (Nat.pair 1 P) (JsWinnerVal.id w) := by
    rw [hrow1]
    simp [byeStep, linkTo, mkRound1Match, hbye, hw]
  rw [hstep]
  have hPb : P < 2 ^ (nR shuffled - 1 - 0) := by
    have hbe := bHalf_eq shuffled h2
    simp only [Nat.sub_zero]
    omega
  have hg1 : getMatch (stateAt tid shuffled P) (Nat.pair 1 P) =
      some (rowAt tid shuffled P 1 P) :=
    getMatch_stateAt tid shuffled P 1 P le_rfl (by omega) hPb
  have hb2 : 2 ^ (nR shuffled - 1) = 2 * 2 ^ (nR shuffled - 2) := by
    conv_lhs => rw [show nR shuffled - 1 = (nR shuffled - 2) + 1 from by omega]
    rw [pow_succ]
    ring
  have hjb : P / 2 < 2 ^ (nR shuffled - 1 - (2 - 1)) := by
    have h1 : P < 2 ^ (nR shuffled - 1) := by simpa using hPb
    have h21 : nR shuffled - 1 - (2 - 1) = nR shuffled - 2 := by omega
    rw [h21]
    omega
  have hnext : (rowAt tid shuffled P 1 P).nextMatchId = some (Nat.pair 2 (P / 2)) := by
    rw [hrowP]
    rfl
  have hg2 : getMatch (stateAt tid shuffled P) (Nat.pair 2 (P / 2)) =
      some (rowAt tid shuffled P 2 (P / 2)) :=
    getMatch_stateAt tid shuffled P 2 (P / 2) (by omega) (by omega) hjb
  rw [advanceWinner_step (JsWinnerVal.id w) hg1 hnext hg2]
  rw [hrowP]
  by_cases hp : P % 2 = 0
  · have hsl : linkSlot P = Slot.player1 := by simp [linkSlot, hp]
    rw [rowAt_two_even_P tid shuffled P hp]
    have hupd := updateMatch_stateAt_succ tid shuffled P
    rw [rowAt_two_even_succ tid shuffled P hp hbye] at hupd
    rw [← hupd]
    congr 1
    simp [linkTo, mkRound1Match, hsl, hw, looseEqWinner, beq_iff_eq]
  · have hp1 : P % 2 = 1 := by omega
    have hsl : linkSlot P = Slot.player2 := by simp [linkSlot, hp]
    rw [rowAt_two_odd_P tid shuffled P hp1]
    have hupd := updateMatch_stateAt_succ tid shuffled P
    rw [rowAt_two_odd_succ tid shuffled P hp1 hbye] at hupd
    rw [← hupd]
    congr 1
    cases hafill : (byeFill shuffled P (P - 1)).isSome <;>
      simp [linkTo, mkRound1Match, hsl, hw, looseEqWinner, beq_iff_eq, hafill]

theorem rowAt_one_status_not_bye (tid : String) (shuffled : List UserId) (P : Nat)
    (hnb : shuffled[bSize shuffled - 1 - P]? ≠ none) :
    (rowAt tid shuffled 0 1 P).status = MatchStatus.scheduled := by
  rw [rowAt_of_ne_two _ _ _ _ _ (by omega)]
  have hs : (shuffled[bSize shuffled - 1 - P]?).isSome = true :=
    Option.isSome_iff_ne_none.mpr hnb
  unfold preRow linkTo mkRound1Match
  split_ifs <;> simp_all

theorem nonbye_step_eq (tid : String) (shuffled : List UserId) (P : Nat)
    (hnb : shuffled[bSize shuffled - 1 - P]? ≠ none) :
    byeStep (stateAt tid shuffled P) (rowAt tid shuffled 0 1 P) =
      stateAt tid shuffled (P + 1) := by
  rw [byeStep_skip _ _ (Or.inl (by rw [rowAt_one_status_not_bye tid shuffled P hnb]; simp)),
    stateAt_succ_of_not_bye tid shuffled P hnb]

theorem fold_round1 (tid : String) (shuffled : List UserId)
    (h2 : 2 ≤ shuffled.length) :
    ∀ P, P ≤ bHalf shuffled →
    ((List.range P).map (rowAt tid shuffled 0 1)).foldl byeStep
        (stateAt tid shuffled 0) =
      stateAt tid shuffled P := by
  intro P
  induction P with
  | zero => intro _; rfl
  | succ P ih =>
    intro hP
    rw [List.range_succ, List.map_append, List.foldl_append, ih (by omega)]
    simp only [List.map_cons, List.map_nil, List.foldl_cons, List.foldl_nil]
    by_cases hbye : shuffled[bSize shuffled - 1 - P]? = none
    · exact bye_step_eq tid shuffled h2 P (by omega) hbye
    · exact nonbye_step_eq tid shuffled P hbye

theorem fold_all_eq (tid : String) (shuffled : List UserId)
    (h2 : 2 ≤ shuffled.length) :
    (bindShape tid shuffled 0).foldl byeStep (stateAt tid shuffled 0) =
      stateAt tid shuffled (bHalf shuffled) := by
  have h1 := nR_pos shuffled h2
  obtain ⟨K, hK⟩ : ∃ K, nR shuffled = K + 1 := ⟨nR shuffled - 1, by omega⟩
  have hdec : bindShape tid shuffled 0 =
      ((List.range (bHalf shuffled)).map (rowAt tid shuffled 0 1)) ++
      (List.range K).flatMap (fun t =>
        (List.range (2 ^ (K - (t + 1)))).map (fun j => rowAt tid shuffled 0 (t + 2) j)) := by
    unfold bindShape
    rw [hK, List.range_succ_eq_map, List.flatMap_cons, List.flatMap_map]
    refine congrArg₂ (· ++ ·) ?_ ?_
    · have hb : bHalf shuffled = 2 ^ (K + 1 - 1 - 0) := by
        rw [bHalf_eq shuffled h2, hK]
        norm_num
      rw [hb]
    · apply flatMap_congr_left
      intro t _
      have he : K + 1 - 1 - (t + 1) = K - (t + 1) := by omega
      simp only [Function.comp, he]
  rw [hdec, List.foldl_append,
    fold_round1 tid shuffled h2 (bHalf shuffled) le_rfl]
  apply foldl_byeStep_skip
  intro m hm
  rw [List.mem_flatMap] at hm
  obtain ⟨t, _, hmem⟩ := hm
  rw [List.mem_map] at hmem
  obtain ⟨j, _, rfl⟩ := hmem
  exact Or.inl (rowAt_status_ne_completed tid shuffled 0 (t + 2) j (by omega))

/-- Full characterization of `generateBracket`: the returned state is the
round-major shape with every bye propagated. -/
theorem generateBracket_eq (tid : String) (shuffled : List UserId)
    (h2 : 2 ≤ shuffled.length) :
    generateBracket tid shuffled = stateAt tid shuffled (bHalf shuffled) := by
  have hlist := build_list_eq tid shuffled h2
  show (buildFrom tid (nR shuffled - 1) 2
      ((List.range (bSize shuffled / 2)).map
        (fun i => mkRound1Match tid shuffled (bSize shuffled) i))).foldl byeStep
      { tournamentId := tid
        matchRows := buildFrom tid (nR shuffled - 1) 2
          ((List.range (bSize shuffled / 2)).map
            (fun i => mkRound1Match tid shuffled (bSize shuffled) i))
        status := "active"
        tRounds := (List.range (nR shuffled)).map (· + 1)
        tStatus := "Active" } = stateAt tid shuffled (bHalf shuffled)
  rw [hlist]
  exact fold_all_eq tid shuffled h2

/-! ### Counting rows by round -/
theorem countP_flatMap_rounds (F : Nat → Nat → Match) (len : Nat → Nat)
    (hround : ∀ t q, (F t q).round = t + 1) :
    ∀ (RT ρ : Nat), 1 ≤ ρ → ρ ≤ RT →
    ((List.range RT).flatMap (fun t => (List.range (len t)).map (F t))).countP
      (fun m => m.round == ρ) = len (ρ - 1) := by
  intro RT
  induction RT with
  | zero => intro ρ h1 h2; omega
  | succ R ih =>
    intro ρ h1 h2
    rw [List.range_succ, List.flatMap_append, List.countP_append]
    have hlast : List.flatMap [R] (fun t => (List.range (len t)).map (F t)) =
        (List.range (len R)).map (F R) := by simp
    rw [hlast, List.countP_map]
    by_cases hρ : ρ ≤ R
    · rw [ih ρ h1 hρ]
      have hz : ((List.range (len R)).countP ((fun m => m.round == ρ) ∘ F R)) = 0 := by
        rw [List.countP_eq_zero]
        intro q _
        simp only [Function.comp, hround]
        simp
        omega
      rw [hz]
      omega
    · have hρe : ρ = R + 1 := by omega
      have hzero :
          ((List.range R).flatMap (fun t => (List.range (len t)).map (F t))).countP
            (fun m => m.round == ρ) = 0 := by
        rw [List.countP_eq_zero]
        intro m hm
        rw [List.mem_flatMap] at hm
        obtain ⟨t, ht, hmem⟩ := hm
        rw [List.mem_map] at hmem
        obtain ⟨q, _, rfl⟩ := hmem
        rw [List.mem_range] at ht
        simp [hround]
        omega
      rw [hzero]
      have hall : ((List.range (len R)).countP ((fun m => m.round == ρ) ∘ F R)) =
          len R := by
        have := List.countP_eq_length (l := List.range (len R))
          (p := (fun m => m.round == ρ) ∘ F R)
        rw [List.length_range] at this
        apply this.mpr
        intro q _
        simp only [Function.comp, hround]
        simp
        omega
      rw [hall]
      have : ρ - 1 = R := by omega
      rw [this]
      omega

theorem sum_two_mul_map (g : Nat → Nat) (l : List Nat) :
    (l.map (fun t => 2 * g t)).sum = 2 * (l.map g).sum := by
  induction l with
  | nil => rfl
  | cons a rest ih =>
    simp only [List.map_cons, List.sum_cons, ih]
    ring

theorem sum_pow_halves : ∀ R : Nat,
    ((List.range R).map (fun t => 2 ^ (R - 1 - t))).sum = 2 ^ R - 1 := by
  intro R
  induction R with
  | zero => rfl
  | succ R ih =>
    rw [List.range_succ, List.map_append, List.sum_append]
    have hlast : (([R].map fun t => 2 ^ (R + 1 - 1 - t))).sum = 1 := by
      simp
    rw [hlast]
    have hfront : ((List.range R).map (fun t => 2 ^ (R + 1 - 1 - t))).sum =
        2 * ((List.range R).map (fun t => 2 ^ (R - 1 - t))).sum := by
      rw [← sum_two_mul_map]
      apply congrArg
      apply List.map_congr_left
      intro t ht
      rw [List.mem_range] at ht
      have : R + 1 - 1 - t = (R - 1 - t) + 1 := by omega
      rw [this, pow_succ]
      ring
    rw [hfront, ih]
    have h1 : 1 ≤ 2 ^ R := Nat.one_le_two_pow
    have h2 : (2:Nat) ^ (R + 1) = 2 * 2 ^ R := by rw [pow_succ]; ring
    omega

theorem length_flatMap_maps (F : Nat → Nat → Match) (len : Nat → Nat) :
    ∀ RT : Nat,
    ((List.range RT).flatMap (fun t => (List.range (len t)).map (F t))).length =
      ((List.range RT).map len).sum := by
  intro RT
  induction RT with
  | zero => rfl
  | succ R ih =>
    rw [List.range_succ, List.flatMap_append, List.length_append, ih,
      List.map_append, List.sum_append]
    simp

theorem countP_bindShape (tid : String) (shuffled : List UserId) (P ρ : Nat)
    (h1 : 1 ≤ ρ) (h2 : ρ ≤ nR shuffled) :
    (bindShape tid shuffled P).countP (fun m => m.round == ρ) =
      2 ^ (nR shuffled - ρ) := by
  unfold bindShape
  rw [countP_flatMap_rounds (fun t q => rowAt tid shuffled P (t + 1) q)
    (fun t => 2 ^ (nR shuffled - 1 - t))
    (fun t q => rowAt_round tid shuffled P (t + 1) q) (nR shuffled) ρ h1 h2]
  have : nR shuffled - 1 - (ρ - 1) = nR shuffled - ρ := by omega
  rw [this]

theorem length_bindShape (tid : String) (shuffled : List UserId) (P : Nat) :
    (bindShape tid shuffled P).length = 2 ^ nR shuffled - 1 := by
  unfold bindShape
  rw [length_flatMap_maps (fun t q => rowAt tid shuffled P (t + 1) q)
    (fun t => 2 ^ (nR shuffled - 1 - t)) (nR shuffled)]
  exact sum_pow_halves (nR shuffled)

/-! ### Further plumbing for the submission flow -/
theorem getMatch_set_status (s : BracketState) (c : String) (q : MatchId) :
    getMatch { s with status := c } q = getMatch s q := rfl

theorem getMatch_isSome_updateMatch (s : BracketState) (m' : Match) (q : MatchId) :
    (getMatch (updateMatch s m') q).isSome = (getMatch s q).isSome := by
  rw [getMatch_updateMatch]
  by_cases hq : q = m'.id
  · rw [if_pos hq]
    cases getMatch s q <;> rfl
  · rw [if_neg hq]

theorem advanceWinner_no_succ {s : BracketState} {mid nid : MatchId} {m : Match}
    (w : JsWinnerVal) (hm : getMatch s mid = some m)
    (hnext : m.nextMatchId = some nid) (hnm : getMatch s nid = none) :
    advanceWinner s mid w = s := by
  simp [advanceWinner, hm, hnext, hnm]

theorem getMatch_isSome_advanceWinner (s : BracketState) (mid : MatchId)
    (w : JsWinnerVal) (q : MatchId) :
    (getMatch (advanceWinner s mid w) q).isSome = (getMatch s q).isSome := by
  cases hm : getMatch s mid with
  | none => rw [advanceWinner_none w hm]
  | some m =>
    cases hnext : m.nextMatchId with
    | none =>
      rw [advanceWinner_final w hm hnext]
      rfl
    | some nid =>
      cases hnm : getMatch s nid with
      | none => rw [advanceWinner_no_succ w hm hnext hnm]
      | some nm =>
        rw [advanceWinner_step w hm hnext hnm]
        exact getMatch_isSome_updateMatch s _ q

theorem submitResult_saves (s : BracketState) (mid : MatchId) (uid : UserId)
    (w : JsWinnerVal) (sc : Option Scores) (pf : Option String) (m : Match)
    (hm : getMatch s mid = some m) :
    ∃ s₁ st res, submitResult s mid uid w sc pf =
      some (updateMatch s₁
        { m with claims := claimsSet m.claims uid ⟨w, sc, pf⟩,
                 status := st, result := res }) ∧
      (∀ q, (getMatch s₁ q).isSome = (getMatch s q).isSome) := by
  cases hcl1 : m.player1.bind (claimsGet (claimsSet m.claims uid ⟨w, sc, pf⟩)) with
  | none =>
    refine ⟨s, MatchStatus.awaiting_confirmation, m.result, ?_, fun q => rfl⟩
    rw [submitResult_awaiting hm (Or.inl hcl1)]
  | some c1 =>
    cases hcl2 : m.player2.bind (claimsGet (claimsSet m.claims uid ⟨w, sc, pf⟩)) with
    | none =>
      refine ⟨s, MatchStatus.awaiting_confirmation, m.result, ?_, fun q => rfl⟩
      rw [submitResult_awaiting hm (Or.inr hcl2)]
    | some c2 =>
      obtain ⟨p1, hp1, hc1⟩ := Option.bind_eq_some.mp hcl1
      obtain ⟨p2, hp2, hc2⟩ := Option.bind_eq_some.mp hcl2
      by_cases hag : jsStrictEq c1.winnerId c2.winnerId = true
      · refine ⟨advanceWinner s mid c1.winnerId, MatchStatus.completed,
          some ⟨c1.winnerId, c1.scores⟩, ?_, fun q =>
            getMatch_isSome_advanceWinner s mid _ q⟩
        have hcons := submitResult_consensus hm hp1 hp2 hc1 hc2 hag
        rw [hcons, getMatch_eq_id hm]
      · have hag' : jsStrictEq c1.winnerId c2.winnerId = false := by
          cases h : jsStrictEq c1.winnerId c2.winnerId
          · rfl
          · exact absurd h hag
        refine ⟨s, MatchStatus.dispute, m.result, ?_, fun q => rfl⟩
        rw [submitResult_dispute hm hp1 hp2 hc1 hc2 hag']

/-! ### Row field projections -/
theorem rowAt_one_player1 (tid : String) (shuffled : List UserId) (P j : Nat) :
    (rowAt tid shuffled P 1 j).player1 = shuffled[j]? := by
  unfold rowAt preRow linkTo mkRound1Match mkPendingMatch
  split_ifs
  all_goals try omega
  all_goals simp_all

theorem rowAt_one_player2 (tid : String) (shuffled : List UserId) (P j : Nat) :
    (rowAt tid shuffled P 1 j).player2 = shuffled[bSize shuffled - 1 - j]? := by
  unfold rowAt preRow linkTo mkRound1Match mkPendingMatch
  split_ifs
  all_goals try omega
  all_goals simp_all

theorem rowAt_one_status (tid : String) (shuffled : List UserId) (P j : Nat) :
    (rowAt tid shuffled P 1 j).status =
      (if (shuffled[bSize shuffled - 1 - j]?).isSome then MatchStatus.scheduled
       else MatchStatus.completed) := by
  unfold rowAt preRow linkTo mkRound1Match mkPendingMatch
  split_ifs
  all_goals try omega
  all_goals simp_all

theorem rowAt_one_winner (tid : String) (shuffled : List UserId) (P j : Nat) :
    (rowAt tid shuffled P 1 j).winner =
      (if (shuffled[bSize shuffled - 1 - j]?).isSome then none else shuffled[j]?) := by
  unfold rowAt preRow linkTo mkRound1Match mkPendingMatch
  split_ifs
  all_goals try omega
  all_goals simp_all

theorem rowAt_one_next_none (tid : String) (shuffled : List UserId) (P j : Nat)
    (h : ¬ 1 < nR shuffled) :
    (rowAt tid shuffled P 1 j).nextMatchId = none := by
  rw [rowAt_of_ne_two _ _ _ _ _ (by omega)]
  unfold preRow linkTo mkRound1Match
  rw [if_neg h, if_pos rfl]

theorem rowAt_two_player1 (tid : String) (shuffled : List UserId) (P j : Nat) :
    (rowAt tid shuffled P 2 j).player1 = byeFill shuffled P (2 * j) := rfl

theorem rowAt_two_player2 (tid : String) (shuffled : List UserId) (P j : Nat) :
    (rowAt tid shuffled P 2 j).player2 = byeFill shuffled P (2 * j + 1) := rfl

theorem rowAt_two_status (tid : String) (shuffled : List UserId) (P j : Nat) :
    (rowAt tid shuffled P 2 j).status =
      (if (byeFill shuffled P (2 * j)).isSome && (byeFill shuffled P (2 * j + 1)).isSome
       then MatchStatus.scheduled else MatchStatus.pending) := rfl

theorem byeFill_eq_some (shuffled : List UserId) (P q : Nat) (hq : q < P)
    (hbye : shuffled[bSize shuffled - 1 - q]? = none) :
    byeFill shuffled P q = shuffled[q]? := by
  unfold byeFill
  rw [if_pos ⟨hq, hbye⟩]

/-- Membership in the generated bracket, in round-major coordinates. -/
theorem mem_generateBracket (tid : String) (shuffled : List UserId)
    (h2 : 2 ≤ shuffled.length) (m : Match) :
    m ∈ (generateBracket tid shuffled).matchRows ↔
      ∃ t j, t < nR shuffled ∧ j < 2 ^ (nR shuffled - 1 - t) ∧
        m = rowAt tid shuffled (bHalf shuffled) (t + 1) j := by
  rw [generateBracket_eq tid shuffled h2]
  show m ∈ bindShape tid shuffled (bHalf shuffled) ↔ _
  unfold bindShape
  rw [List.mem_flatMap]
  constructor
  · rintro ⟨t, ht, hmem⟩
    rw [List.mem_map] at hmem
    obtain ⟨j, hj, rfl⟩ := hmem
    rw [List.mem_range] at ht
    rw [List.mem_range] at hj
    exact ⟨t, j, ht, hj, rfl⟩
  · rintro ⟨t, j, ht, hj, rfl⟩
    exact ⟨t, List.mem_range.mpr ht,
      List.mem_map.mpr ⟨j, List.mem_range.mpr hj, rfl⟩⟩

/-! ## Claims -/
/-- C8: for every finalized match whose `nextMatchId` is empty (the
final), advancement sets the bracket's `status` to `completed` and
mutates nothing else: the row list is untouched, so no successor match
and no other match changes. -/
theorem C8_final_sets_bracket_completed (s : BracketState) (mid : MatchId)
    (w : JsWinnerVal) (m : Match) (hm : getMatch s mid = some m)
    (hfin : m.status = MatchStatus.completed) (hnone : m.nextMatchId = none) :
    advanceWinner s mid w = { s with status := "completed" } ∧
    (advanceWinner s mid w).matchRows = s.matchRows ∧
    (∀ q, getMatch (advanceWinner s mid w) q = getMatch s q) := by
  have h := advanceWinner_final w hm hnone
  refine ⟨h, ?_, ?_⟩
  · rw [h]
  · intro q
    rw [h]
    rfl

/-- Witness for C8 at a concrete one-match bracket whose completed final
has no successor. -/
theorem C8_witness :
    advanceWinner
        (mkTestState [mkTestMatch 1 (some "a") (some "b")
          MatchStatus.completed none none []])
        1 (JsWinnerVal.id "a") =
      { mkTestState [mkTestMatch 1 (some "a") (some "b")
          MatchStatus.completed none none []] with status := "completed" } :=
  (C8_final_sets_bracket_completed
    (mkTestState [mkTestMatch 1 (some "a") (some "b")
      MatchStatus.completed none none []])
    1 (JsWinnerVal.id "a")
    (mkTestMatch 1 (some "a") (some "b") MatchStatus.completed none none [])
    (by decide) (by decide) (by decide)).1

/-- C4: when, after recording a claim, both slot-participants have live
claims naming different winner ids, the match's status becomes `dispute`,
its `winner` field is left as it was (empty stays empty), no other row
changes (in particular no advancement into the successor), and the
bracket status is untouched. -/
theorem C4_dispute_no_advancement (s : BracketState) (mid : MatchId)
    (uid : UserId) (w : JsWinnerVal) (sc : Option Scores) (pf : Option String)
    (m : Match) (p1 p2 : UserId) (c1 c2 : Claim) (wA wB : UserId)
    (hm : getMatch s mid = some m)
    (hp1 : m.player1 = some p1) (hp2 : m.player2 = some p2)
    (hc1 : claimsGet (claimsSet m.claims uid ⟨w, sc, pf⟩) p1 = some c1)
    (hc2 : claimsGet (claimsSet m.claims uid ⟨w, sc, pf⟩) p2 = some c2)
    (hA : c1.winnerId = JsWinnerVal.id wA) (hB : c2.winnerId = JsWinnerVal.id wB)
    (hne : wA ≠ wB) :
    ∃ s', submitResult s mid uid w sc pf = some s' ∧
      (∃ m', getMatch s' mid = some m' ∧
        m'.status = MatchStatus.dispute ∧ m'.winner = m.winner ∧
        m'.result = m.result ∧
        m'.claims = claimsSet m.claims uid ⟨w, sc, pf⟩) ∧
      (∀ q, q ≠ mid → getMatch s' q = getMatch s q) ∧
      s'.status = s.status := by
  have hdis : jsStrictEq c1.winnerId c2.winnerId = false := by
    rw [hA, hB]
    simp only [jsStrictEq]
    rw [beq_eq_false_iff_ne]
    exact hne
  have heq := submitResult_dispute hm hp1 hp2 hc1 hc2 hdis
  have hid : m.id = mid := getMatch_eq_id hm
  refine ⟨_, heq,
    ⟨{ m with
        claims := claimsSet m.claims uid ⟨w, sc, pf⟩,
        status := MatchStatus.dispute }, ?_, rfl, rfl, rfl, rfl⟩, ?_, rfl⟩
  · rw [getMatch_updateMatch]
    rw [show ({ m with
        claims := claimsSet m.claims uid ⟨w, sc, pf⟩,
        status := MatchStatus.dispute } : Match).id = mid from hid]
    rw [if_pos rfl, hm]
    rfl
  · intro q hq
    rw [getMatch_updateMatch]
    rw [show ({ m with
        claims := claimsSet m.claims uid ⟨w, sc, pf⟩,
        status := MatchStatus.dispute } : Match).id = mid from hid]
    rw [if_neg hq]

/-- Witness for C4: in a concrete awaiting-confirmation match where `a`
has claimed `a`, a counter-claim by `b` naming `b` yields `dispute` with
no advancement. -/
theorem C4_witness :
    ∃ s', submitResult
        (mkTestState [mkTestMatch 1 (some "a") (some "b")
            MatchStatus.awaiting_confirmation (some 2) (some Slot.player1)
            [("a", ⟨JsWinnerVal.id "a", none, none⟩)],
          mkTestMatch 2 none none MatchStatus.pending none none []])
        1 "b" (JsWinnerVal.id "b") none none = some s' ∧
      (∃ m', getMatch s' 1 = some m' ∧
        m'.status = MatchStatus.dispute ∧
        m'.winner = (mkTestMatch 1 (some "a") (some "b")
            MatchStatus.awaiting_confirmation (some 2) (some Slot.player1)
            [("a", ⟨JsWinnerVal.id "a", none, none⟩)]).winner ∧
        m'.result = (mkTestMatch 1 (some "a") (some "b")
            MatchStatus.awaiting_confirmation (some 2) (some Slot.player1)
            [("a", ⟨JsWinnerVal.id "a", none, none⟩)]).result ∧
        m'.claims = claimsSet (mkTestMatch 1 (some "a") (some "b")
            MatchStatus.awaiting_confirmation (some 2) (some Slot.player1)
            [("a", ⟨JsWinnerVal.id "a", none, none⟩)]).claims "b"
          ⟨JsWinnerVal.id "b", none, none⟩) ∧
      (∀ q, q ≠ 1 → getMatch s' q =
        getMatch (mkTestState [mkTestMatch 1 (some "a") (some "b")
            MatchStatus.awaiting_confirmation (some 2) (some Slot.player1)
            [("a", ⟨JsWinnerVal.id "a", none, none⟩)],
          mkTestMatch 2 none none MatchStatus.pending none none []]) q) ∧
      s'.status = (mkTestState [mkTestMatch 1 (some "a") (some "b")
            MatchStatus.awaiting_confirmation (some 2) (some Slot.player1)
            [("a", ⟨JsWinnerVal.id "a", none, none⟩)],
          mkTestMatch 2 none none MatchStatus.pending none none []]).status :=
  C4_dispute_no_advancement _ 1 "b" (JsWinnerVal.id "b") none none
    (mkTestMatch 1 (some "a") (some "b")
      MatchStatus.awaiting_confirmation (some 2) (some Slot.player1)
      [("a", ⟨JsWinnerVal.id "a", none, none⟩)])
    "a" "b" ⟨JsWinnerVal.id "a", none, none⟩ ⟨JsWinnerVal.id "b", none, none⟩
    "a" "b" (by decide) (by decide) (by decide) (by decide) (by decide)
    (by decide) (by decide) (by decide)

theorem advanceWinner_step_target {s : BracketState} {mid nid : MatchId}
    {m nm : Match} (w : JsWinnerVal) (hm : getMatch s mid = some m)
    (hnext : m.nextMatchId = some nid) (hnm : getMatch s nid = some nm) :
    advanceWinner s mid w = updateMatch s (advTarget m nm w) :=
  advanceWinner_step w hm hnext hnm

theorem advTarget_id (m nm : Match) (w : JsWinnerVal) :
    (advTarget m nm w).id = nm.id := by
  simp only [advTarget]
  split_ifs <;> rfl

theorem advTarget_slot1 (m nm : Match) (w : JsWinnerVal) (wp : UserId)
    (hsl : m.nextMatchSlot = some Slot.player1)
    (hwin : (if looseEqWinner m.player1 w then m.player1 else m.player2) = some wp) :
    (advTarget m nm w).player1 = some wp ∧
    (advTarget m nm w).player2 = nm.player2 := by
  simp only [advTarget, hsl, hwin]
  split_ifs <;> simp_all

theorem advTarget_slot2 (m nm : Match) (w : JsWinnerVal) (wp : UserId)
    (hsl : m.nextMatchSlot = some Slot.player2)
    (hwin : (if looseEqWinner m.player1 w then m.player1 else m.player2) = some wp) :
    (advTarget m nm w).player2 = some wp ∧
    (advTarget m nm w).player1 = nm.player1 := by
  simp only [advTarget, hsl, hwin]
  split_ifs <;> simp_all

theorem advTarget_scheduled (m nm : Match) (w : JsWinnerVal) :
    (advTarget m nm w).player1.isSome = true →
    (advTarget m nm w).player2.isSome = true →
    (advTarget m nm w).status = MatchStatus.scheduled := by
  simp only [advTarget]
  split_ifs with h1 h2 <;> intro ha hb <;> simp_all

/-- C7: (a) for a finalized match with a successor, advancement places
the winner exactly into the successor slot named by `nextMatchSlot`
(leaving the other slot alone), marks the successor `scheduled` once both
of its slots are filled, and touches no other row; (b) consequently, a
round-2 match both of whose feeder matches are byes is in `scheduled`
status immediately after build, with no external submission. -/
theorem C7_slot_placement_and_bye_cascade :
    (∀ (s : BracketState) (mid nid : MatchId) (m nm : Match) (w : UserId),
      getMatch s mid = some m → m.status = MatchStatus.completed →
      m.nextMatchId = some nid → getMatch s nid = some nm →
      (m.player1 = some w ∨ m.player2 = some w) →
      ∃ nm', advanceWinner s mid (JsWinnerVal.id w) = updateMatch s nm' ∧
        nm'.id = nm.id ∧
        (m.nextMatchSlot = some Slot.player1 →
          nm'.player1 = some w ∧ nm'.player2 = nm.player2) ∧
        (m.nextMatchSlot = some Slot.player2 →
          nm'.player2 = some w ∧ nm'.player1 = nm.player1) ∧
        (nm'.player1.isSome = true → nm'.player2.isSome = true →
          nm'.status = MatchStatus.scheduled) ∧
        (∀ q, q ≠ nm.id →
          getMatch (advanceWinner s mid (JsWinnerVal.id w)) q = getMatch s q)) ∧
    (∀ (tid : String) (shuffled : List UserId), 2 ≤ shuffled.length →
      ∀ m2 f1 f2 : Match, m2 ∈ (generateBracket tid shuffled).matchRows →
        f1 ∈ (generateBracket tid shuffled).matchRows →
        f2 ∈ (generateBracket tid shuffled).matchRows →
        m2.round = 2 → f1.round = 1 → f2.round = 1 → f1.id ≠ f2.id →
        f1.nextMatchId = some m2.id → f2.nextMatchId = some m2.id →
        f1.player2 = none → f2.player2 = none →
        m2.status = MatchStatus.scheduled) := by
  constructor
  · intro s mid nid m nm w hm hfin hnext hnm hor
    have hwin : (if looseEqWinner m.player1 (JsWinnerVal.id w) then m.player1
        else m.player2) = some w := by
      by_cases hl : looseEqWinner m.player1 (JsWinnerVal.id w) = true
      · rw [if_pos hl]
        cases hp : m.player1 with
        | none => rw [hp] at hl; simp [looseEqWinner] at hl
        | some x =>
          rw [hp] at hl
          simp only [looseEqWinner] at hl
          have hxw : x = w := by simpa using hl
          rw [hxw]
      · rw [if_neg (by simpa using hl)]
        rcases hor with h | h
        · exfalso
          apply hl
          rw [h]
          simp [looseEqWinner]
        · exact h
    refine ⟨advTarget m nm (JsWinnerVal.id w),
      advanceWinner_step_target (JsWinnerVal.id w) hm hnext hnm,
      advTarget_id m nm (JsWinnerVal.id w),
      fun hsl => advTarget_slot1 m nm (JsWinnerVal.id w) w hsl hwin,
      fun hsl => advTarget_slot2 m nm (JsWinnerVal.id w) w hsl hwin,
      advTarget_scheduled m nm (JsWinnerVal.id w), ?_⟩
    intro q hq
    rw [advanceWinner_step_target (JsWinnerVal.id w) hm hnext hnm,
      getMatch_updateMatch, if_neg]
    rw [advTarget_id]
    exact hq
  · intro tid shuffled h2 m2 f1 f2 hm2 hf1 hf2 hr2 hr1 hr1' hne hn1 hn2 hb1 hb2
    rw [mem_generateBracket tid shuffled h2] at hm2 hf1 hf2
    obtain ⟨t2, j2, ht2, hj2, rfl⟩ := hm2
    obtain ⟨ta, ia, hta, hia, rfl⟩ := hf1
    obtain ⟨tb, ib, htb, hib, rfl⟩ := hf2
    rw [rowAt_round] at hr2 hr1 hr1'
    have ht2e : t2 = 1 := by omega
    have htae : ta = 0 := by omega
    have htbe : tb = 0 := by omega
    subst ht2e htae htbe
    have hnRa : 1 < nR shuffled := by
      by_contra hc
      rw [rowAt_one_next_none tid shuffled _ ia hc] at hn1
      cases hn1
    have hla := rowAt_one_linked tid shuffled (bHalf shuffled) ia hnRa
    have hlb := rowAt_one_linked tid shuffled (bHalf shuffled) ib hnRa
    rw [hla] at hn1
    rw [hlb] at hn2
    rw [rowAt_id] at hn1 hn2
    simp only [linkTo] at hn1 hn2
    have hia2 : Nat.pair 2 (ia / 2) = Nat.pair 2 j2 := by
      have := Option.some.inj hn1
      simpa using this
    have hib2 : Nat.pair 2 (ib / 2) = Nat.pair 2 j2 := by
      have := Option.some.inj hn2
      simpa using this
    rw [Nat.pair_eq_pair] at hia2 hib2
    have hja : ia / 2 = j2 := hia2.2
    have hjb : ib / 2 = j2 := hib2.2
    have hineq : ia ≠ ib := by
      intro hcon
      apply hne
      rw [hcon]
    rw [rowAt_one_player2] at hb1 hb2
    have hsplit : (ia = 2 * j2 ∧ ib = 2 * j2 + 1) ∨
        (ib = 2 * j2 ∧ ia = 2 * j2 + 1) := by omega
    have hhalf := bHalf_eq shuffled h2
    have hbound : 2 ^ (nR shuffled - 1) = 2 * 2 ^ (nR shuffled - 2) := by
      conv_lhs => rw [show nR shuffled - 1 = (nR shuffled - 2) + 1 from by omega]
      rw [pow_succ]
      ring
    have hj2b : 2 * j2 + 1 < bHalf shuffled := by
      have hjx : j2 < 2 ^ (nR shuffled - 1 - 1) := hj2
      have he : nR shuffled - 1 - 1 = nR shuffled - 2 := by omega
      rw [he] at hjx
      omega
    have hlen := bHalf_lt_len shuffled h2
    have hbye1 : shuffled[bSize shuffled - 1 - 2 * j2]? = none := by
      rcases hsplit with ⟨ha, hb⟩ | ⟨ha, hb⟩
      · rw [← ha]; exact hb1
      · rw [← ha]; exact hb2
    have hbye2 : shuffled[bSize shuffled - 1 - (2 * j2 + 1)]? = none := by
      rcases hsplit with ⟨ha, hb⟩ | ⟨ha, hb⟩
      · rw [← hb]; exact hb2
      · rw [← hb]; exact hb1
    rw [rowAt_two_status]
    rw [byeFill_eq_some shuffled (bHalf shuffled) (2 * j2) (by omega) hbye1,
      byeFill_eq_some shuffled (bHalf shuffled) (2 * j2 + 1) (by omega) hbye2]
    have hs1 : (shuffled[2 * j2]?).isSome = true := by
      rw [List.getElem?_eq_getElem (by omega : 2 * j2 < shuffled.length)]
      rfl
    have hs2 : (shuffled[2 * j2 + 1]?).isSome = true := by
      rw [List.getElem?_eq_getElem (by omega : 2 * j2 + 1 < shuffled.length)]
      rfl
    rw [hs1, hs2]
    rfl

/-- Witness for C7 at a concrete finalized match with successor, and at
the n = 5 bracket whose round-2 match 0 is fed by two byes. -/
theorem C7_witness :
    (∃ nm', advanceWinner c7S 1 (JsWinnerVal.id "a") = updateMatch c7S nm' ∧
      nm'.id = c7Nm.id ∧
      (c7M.nextMatchSlot = some Slot.player1 →
        nm'.player1 = some "a" ∧ nm'.player2 = c7Nm.player2) ∧
      (c7M.nextMatchSlot = some Slot.player2 →
        nm'.player2 = some "a" ∧ nm'.player1 = c7Nm.player1) ∧
      (nm'.player1.isSome = true → nm'.player2.isSome = true →
        nm'.status = MatchStatus.scheduled) ∧
      (∀ q, q ≠ c7Nm.id →
        getMatch (advanceWinner c7S 1 (JsWinnerVal.id "a")) q = getMatch c7S q)) ∧
    (rowAt "t" c7Shuffled (bHalf c7Shuffled) 2 0).status = MatchStatus.scheduled :=
  ⟨C7_slot_placement_and_bye_cascade.1 c7S 1 2 c7M c7Nm "a"
      (by decide) (by decide) (by decide) (by decide) (Or.inl (by decide)),
   C7_slot_placement_and_bye_cascade.2 "t" c7Shuffled (by decide)
      (rowAt "t" c7Shuffled (bHalf c7Shuffled) 2 0)
      (rowAt "t" c7Shuffled (bHalf c7Shuffled) 1 0)
      (rowAt "t" c7Shuffled (bHalf c7Shuffled) 1 1)
      (by decide) (by decide) (by decide)
      (by decide) (by decide) (by decide) (by decide)
      (by decide) (by decide) (by decide) (by decide)⟩

/-- Counterexample for C2: after the agreeing counter-claim the match is
finalized (status `completed`, `result` recorded) but its `winner` field
is still empty — `finalizeMatch` never writes `match.winner`, so the
claim that the winner field is set to the agreed participant is false. -/
theorem C2_counterexample :
    ((submitResult c2S 1 "b" (JsWinnerVal.id "a") none none).bind
        (fun s' => getMatch s' 1)).map
      (fun m => (m.status, m.winner, m.result)) =
      some (MatchStatus.completed, none, some ⟨JsWinnerVal.id "a", none⟩) ∧
    ¬ (((submitResult c2S 1 "b" (JsWinnerVal.id "a") none none).bind
        (fun s' => getMatch s' 1)).map (fun m => m.winner) = some (some "a")) := by
  constructor
  · decide
  · decide

/-- C2 (amended): for a match in `scheduled` or `awaiting_confirmation`,
when after recording a claim both slot-participants have live claims
naming the same winner id, the match is finalized in that same operation
— `result` is set (with the agreed id inside `result.winner`), `status`
becomes `completed`, and the Advancement Propagator runs on the match —
but the match's top-level `winner` field is left unchanged (it stays
empty); only `result.winner` records the agreed participant. -/
theorem C2_consensus_finalizes_amended (s : BracketState) (mid : MatchId)
    (uid : UserId) (w : JsWinnerVal) (sc : Option Scores) (pf : Option String)
    (m : Match) (p1 p2 : UserId) (c1 c2 : Claim) (wW : UserId)
    (hst : m.status = MatchStatus.scheduled ∨
           m.status = MatchStatus.awaiting_confirmation)
    (hm : getMatch s mid = some m)
    (hp1 : m.player1 = some p1) (hp2 : m.player2 = some p2)
    (hc1 : claimsGet (claimsSet m.claims uid ⟨w, sc, pf⟩) p1 = some c1)
    (hc2 : claimsGet (claimsSet m.claims uid ⟨w, sc, pf⟩) p2 = some c2)
    (hA : c1.winnerId = JsWinnerVal.id wW) (hB : c2.winnerId = JsWinnerVal.id wW) :
    submitResult s mid uid w sc pf =
      some (updateMatch (advanceWinner s mid (JsWinnerVal.id wW))
        { m with
            claims := claimsSet m.claims uid ⟨w, sc, pf⟩,
            result := some ⟨JsWinnerVal.id wW, c1.scores⟩,
            status := MatchStatus.completed }) ∧
    (∃ s' m', submitResult s mid uid w sc pf = some s' ∧
      getMatch s' mid = some m' ∧ m'.status = MatchStatus.completed ∧
      m'.result = some ⟨JsWinnerVal.id wW, c1.scores⟩ ∧
      m'.winner = m.winner) := by
  have hag : jsStrictEq c1.winnerId c2.winnerId = true := by
    rw [hA, hB]
    simp [jsStrictEq]
  have hcons := submitResult_consensus hm hp1 hp2 hc1 hc2 hag
  rw [hA] at hcons
  have hid : m.id = mid := getMatch_eq_id hm
  rw [hid] at hcons
  constructor
  · rw [hcons, hid]
  · refine ⟨updateMatch (advanceWinner s mid (JsWinnerVal.id wW))
      { m with
        claims := claimsSet m.claims uid ⟨w, sc, pf⟩,
        result := some ⟨JsWinnerVal.id wW, c1.scores⟩,
        status := MatchStatus.completed },
      { m with
        claims := claimsSet m.claims uid ⟨w, sc, pf⟩,
        result := some ⟨JsWinnerVal.id wW, c1.scores⟩,
        status := MatchStatus.completed }, ?_, ?_, rfl, rfl, rfl⟩
    · rw [hcons, hid]
    rw [getMatch_updateMatch]
    rw [show ({ m with
        claims := claimsSet m.claims uid ⟨w, sc, pf⟩,
        result := some ⟨JsWinnerVal.id wW, c1.scores⟩,
        status := MatchStatus.completed } : Match).id = mid from hid]
    rw [if_pos rfl]
    have hsome : (getMatch (advanceWinner s mid (JsWinnerVal.id wW)) mid).isSome = true := by
      rw [getMatch_isSome_advanceWinner, hm]
      rfl
    cases hx : getMatch (advanceWinner s mid (JsWinnerVal.id wW)) mid with
    | none => rw [hx] at hsome; cases hsome
    | some x => rfl

/-- Witness for the amended C2 at the concrete state of the
counterexample. -/
theorem C2_witness :
    submitResult c2S 1 "b" (JsWinnerVal.id "a") none none =
      some (updateMatch (advanceWinner c2S 1 (JsWinnerVal.id "a"))
        { mkTestMatch 1 (some "a") (some "b") MatchStatus.awaiting_confirmation
            (some 2) (some Slot.player1) [("a", ⟨JsWinnerVal.id "a", none, none⟩)] with
            claims := claimsSet
              [("a", ⟨JsWinnerVal.id "a", none, none⟩)] "b"
              ⟨JsWinnerVal.id "a", none, none⟩,
            result := some ⟨JsWinnerVal.id "a", none⟩,
            status := MatchStatus.completed }) ∧
    (∃ s' m', submitResult c2S 1 "b" (JsWinnerVal.id "a") none none = some s' ∧
      getMatch s' 1 = some m' ∧ m'.status = MatchStatus.completed ∧
      m'.result = some ⟨JsWinnerVal.id "a", none⟩ ∧
      m'.winner = (mkTestMatch 1 (some "a") (some "b")
        MatchStatus.awaiting_confirmation (some 2) (some Slot.player1)
        [("a", ⟨JsWinnerVal.id "a", none, none⟩)]).winner) :=
  C2_consensus_finalizes_amended c2S 1 "b" (JsWinnerVal.id "a") none none
    (mkTestMatch 1 (some "a") (some "b") MatchStatus.awaiting_confirmation
      (some 2) (some Slot.player1) [("a", ⟨JsWinnerVal.id "a", none, none⟩)])
    "a" "b" ⟨JsWinnerVal.id "a", none, none⟩ ⟨JsWinnerVal.id "a", none, none⟩ "a"
    (Or.inr (by decide)) (by decide) (by decide) (by decide) (by decide)
    (by decide) (by decide) (by decide)

/-- Counterexample for C9: `submitResult` never restricts the claim key
to the match's two slot participants, so three submissions with three
distinct user ids leave three live entries in the claims map of one
match — more than the two the claim allows. -/
theorem C9_counterexample :
    ((((submitResult
          (mkTestState [mkTestMatch 1 (some "a") (some "b")
            MatchStatus.scheduled none none []])
          1 "x" (JsWinnerVal.id "a") none none).bind
        (fun s1 => submitResult s1 1 "y" (JsWinnerVal.id "a") none none)).bind
        (fun s2 => submitResult s2 1 "z" (JsWinnerVal.id "a") none none)).bind
      (fun s3 => getMatch s3 1)).map (fun m => m.claims.length) = some 3 := by
  decide

/-- C9 (amended): each `submitResult` stores at most one live claim per
submitted user id — a resubmission under the same id overwrites the
previous claim in place, other keys are untouched, and the map grows by
one entry exactly when the id had no live claim; but since the id is not
restricted to the match's two slots, the map is not bounded by 2. -/
theorem C9_claim_overwrite_amended (s : BracketState) (mid : MatchId)
    (uid : UserId) (w : JsWinnerVal) (sc : Option Scores) (pf : Option String)
    (m : Match) (hm : getMatch s mid = some m) :
    ∃ s' m', submitResult s mid uid w sc pf = some s' ∧
      getMatch s' mid = some m' ∧
      m'.claims = claimsSet m.claims uid ⟨w, sc, pf⟩ ∧
      claimsGet m'.claims uid = some ⟨w, sc, pf⟩ ∧
      (∀ k, k ≠ uid → claimsGet m'.claims k = claimsGet m.claims k) ∧
      m'.claims.length =
        (if (claimsGet m.claims uid).isSome then m.claims.length
         else m.claims.length + 1) := by
  obtain ⟨s₁, st, res, heq, hpres⟩ := submitResult_saves s mid uid w sc pf m hm
  have hid : m.id = mid := getMatch_eq_id hm
  refine ⟨updateMatch s₁
      { m with
        claims := claimsSet m.claims uid ⟨w, sc, pf⟩,
        status := st, result := res },
      { m with
        claims := claimsSet m.claims uid ⟨w, sc, pf⟩,
        status := st, result := res }, heq, ?_,
      rfl, claimsGet_claimsSet_self m.claims uid ⟨w, sc, pf⟩,
      fun k hk => claimsGet_claimsSet_other m.claims uid k ⟨w, sc, pf⟩ hk,
      claimsSet_length m.claims uid ⟨w, sc, pf⟩⟩
  rw [getMatch_updateMatch]
  rw [show ({ m with
      claims := claimsSet m.claims uid ⟨w, sc, pf⟩,
      status := st, result := res } : Match).id = mid from hid]
  rw [if_pos rfl]
  have hsome : (getMatch s₁ mid).isSome = true := by
    rw [hpres mid, hm]
    rfl
  cases hx : getMatch s₁ mid with
  | none => rw [hx] at hsome; cases hsome
  | some x => rfl

/-- Witness for the amended C9: a resubmission by the same participant
overwrites the previous claim and the map does not grow. -/
theorem C9_witness :
    ∃ s' m', submitResult
        (mkTestState [mkTestMatch 1 (some "a") (some "b")
          MatchStatus.awaiting_confirmation none none
          [("a", ⟨JsWinnerVal.id "a", none, none⟩)]])
        1 "a" (JsWinnerVal.id "b") none none = some s' ∧
      getMatch s' 1 = some m' ∧
      m'.claims = claimsSet [("a", ⟨JsWinnerVal.id "a", none, none⟩)] "a"
        ⟨JsWinnerVal.id "b", none, none⟩ ∧
      claimsGet m'.claims "a" = some ⟨JsWinnerVal.id "b", none, none⟩ ∧
      (∀ k, k ≠ "a" → claimsGet m'.claims k =
        claimsGet [("a", ⟨JsWinnerVal.id "a", none, none⟩)] k) ∧
      m'.claims.length =
        (if (claimsGet [("a", ⟨JsWinnerVal.id "a", none, none⟩)] "a").isSome
         then ([("a", (⟨JsWinnerVal.id "a", none, none⟩ : Claim))]).length
         else ([("a", (⟨JsWinnerVal.id "a", none, none⟩ : Claim))]).length + 1) :=
  C9_claim_overwrite_amended
    (mkTestState [mkTestMatch 1 (some "a") (some "b")
      MatchStatus.awaiting_confirmation none none
      [("a", ⟨JsWinnerVal.id "a", none, none⟩)]])
    1 "a" (JsWinnerVal.id "b") none none
    (mkTestMatch 1 (some "a") (some "b")
      MatchStatus.awaiting_confirmation none none
      [("a", ⟨JsWinnerVal.id "a", none, none⟩)])
    (by decide)

/-- C1 (code bug): `submitResult` performs no schedulability check at
all.  At the n = 3 bracket, the round-1 bye match is `completed` at
build time, yet a further `submitResult` against it succeeds, records a
claim, and moves the completed match to `awaiting_confirmation` instead
of failing with `MatchNotSchedulable` and leaving the match unchanged. -/
theorem C1_no_schedulability_guard :
    (getMatch (generateBracket "t" ["a", "b", "c"]) (Nat.pair 1 0)).map
        (fun m => m.status) = some MatchStatus.completed ∧
    ((submitResult (generateBracket "t" ["a", "b", "c"]) (Nat.pair 1 0)
          "a" (JsWinnerVal.id "a") none none).bind
        (fun s' => getMatch s' (Nat.pair 1 0))).map (fun m => m.status) =
      some MatchStatus.awaiting_confirmation := by
  constructor
  · decide
  · decide

/-- Counterexample for C3: an admin whose id occupies neither slot of the
match passes the route's authorization check; the call succeeds and a
claim is recorded on the match (keyed, through the positional-argument
shift, by the request's `winnerId`), contradicting the claim that every
non-slot submitter fails with `NotAParticipant` and records nothing. -/
theorem C3_counterexample :
    (getMatch (generateBracket "t" ["a", "b", "c", "d"]) (Nat.pair 1 0)).map
        (fun m => decide (m.player1 = some "adm") || decide (m.player2 = some "adm")) =
      some false ∧
    ((postMatchResult (generateBracket "t" ["a", "b", "c", "d"])
          ⟨"adm", "admin"⟩ (Nat.pair 1 0) "a" none).toOption.bind
        (fun s' => getMatch s' (Nat.pair 1 0))).map (fun m => m.claims.length) =
      some 1 := by
  constructor
  · decide
  · decide

/-- C3 (amended): a submission whose authenticated user occupies neither
of the match's two slots is rejected with 403 `Not authorized`
(`NotAParticipant`) before any claim is recorded — unless the user is an
admin, in which case the check is bypassed (see the counterexample). -/
theorem C3_nonparticipant_rejected_amended (s : BracketState) (user : ReqUser)
    (matchId : MatchId) (winnerId : UserId) (scores : Option Scores) (m : Match)
    (hm : getMatch s matchId = some m)
    (h1 : m.player1 ≠ some user.id) (h2 : m.player2 ≠ some user.id)
    (hrole : user.role ≠ "admin") :
    postMatchResult s user matchId winnerId scores =
      Except.error RouteError.notAuthorized := by
  have b1 : (m.player1 == some user.id) = false := by
    rw [beq_eq_false_iff_ne]
    exact h1
  have b2 : (m.player2 == some user.id) = false := by
    rw [beq_eq_false_iff_ne]
    exact h2
  have b3 : (user.role == "admin") = false := by
    rw [beq_eq_false_iff_ne]
    exact hrole
  simp [postMatchResult, hm, b1, b2, b3]

/-- Witness for the amended C3: a non-admin outsider is rejected with
`notAuthorized`. -/
theorem C3_witness :
    postMatchResult (generateBracket "t" ["a", "b", "c", "d"])
        ⟨"x", "player"⟩ (Nat.pair 1 0) "a" none =
      Except.error RouteError.notAuthorized :=
  C3_nonparticipant_rejected_amended
    (generateBracket "t" ["a", "b", "c", "d"]) ⟨"x", "player"⟩
    (Nat.pair 1 0) "a" none
    (rowAt "t" ["a", "b", "c", "d"] (bHalf ["a", "b", "c", "d"]) 1 0)
    (by decide) (by decide) (by decide) (by decide)

/-- C5: for every participant count n ≥ 2, the builder computes
`rounds = ceil(log2 n)` (the embedded `ceilLog2` agrees with
`Nat.clog 2`), records the round list `[1..rounds]`, creates exactly
`2 ^ (rounds - r)` matches in each round `r`, and creates
`2 ^ rounds - 1` matches in total. -/
theorem C5_bracket_dimensions (tid : String) (shuffled : List UserId)
    (h2 : 2 ≤ shuffled.length) :
    ceilLog2 shuffled.length = Nat.clog 2 shuffled.length ∧
    (generateBracket tid shuffled).tRounds =
      (List.range (ceilLog2 shuffled.length)).map (· + 1) ∧
    (∀ r, 1 ≤ r → r ≤ ceilLog2 shuffled.length →
      (generateBracket tid shuffled).matchRows.countP (fun m => m.round == r) =
        2 ^ (ceilLog2 shuffled.length - r)) ∧
    (generateBracket tid shuffled).matchRows.length =
      2 ^ ceilLog2 shuffled.length - 1 := by
  refine ⟨ceilLog2_eq_clog _, ?_, ?_, ?_⟩
  · rw [generateBracket_eq tid shuffled h2]
    rfl
  · intro r h1 hr
    rw [generateBracket_eq tid shuffled h2]
    exact countP_bindShape tid shuffled (bHalf shuffled) r h1 hr
  · rw [generateBracket_eq tid shuffled h2]
    exact length_bindShape tid shuffled (bHalf shuffled)

/-- Witness for C5 at n = 5: three rounds, 4/2/1 matches per round,
7 matches in total. -/
theorem C5_witness :
    ceilLog2 (5 : Nat) = Nat.clog 2 5 ∧
    (generateBracket "t" ["a", "b", "c", "d", "e"]).tRounds =
      (List.range (ceilLog2 5)).map (· + 1) ∧
    (generateBracket "t" ["a", "b", "c", "d", "e"]).matchRows.countP
      (fun m => m.round == 1) = 2 ^ (ceilLog2 5 - 1) ∧
    (generateBracket "t" ["a", "b", "c", "d", "e"]).matchRows.length =
      2 ^ ceilLog2 5 - 1 :=
  have h := C5_bracket_dimensions "t" ["a", "b", "c", "d", "e"] (by decide)
  ⟨h.1, h.2.1, h.2.2.1 1 (by decide) (by decide), h.2.2.2⟩

/-- C10: every round-1 match of a generated bracket has a non-empty
`player1` slot — a bye can only sit in the `player2` position — because
the number of round-1 matches, `2 ^ rounds / 2`, never exceeds the
participant count. -/
theorem C10_round1_player1_nonempty (tid : String) (shuffled : List UserId)
    (h2 : 2 ≤ shuffled.length) :
    (∀ m ∈ (generateBracket tid shuffled).matchRows,
      m.round = 1 → m.player1 ≠ none) ∧
    2 ^ ceilLog2 shuffled.length / 2 ≤ shuffled.length := by
  constructor
  · intro m hm hr
    rw [mem_generateBracket tid shuffled h2] at hm
    obtain ⟨t, j, ht, hj, rfl⟩ := hm
    rw [rowAt_round] at hr
    have ht0 : t = 0 := by omega
    subst ht0
    rw [rowAt_one_player1]
    have hjlen : j < shuffled.length := by
      have hbh := bHalf_eq shuffled h2
      have hlt := bHalf_lt_len shuffled h2
      have hjx : j < 2 ^ (nR shuffled - 1 - 0) := hj
      simp only [Nat.sub_zero] at hjx
      omega
    rw [List.getElem?_eq_getElem hjlen]
    simp
  · exact Nat.le_of_lt (bHalf_lt_len shuffled h2)

/-- Witness for C10 at n = 3, checked on the bye match of round 1. -/
theorem C10_witness :
    (rowAt "t" ["a", "b", "c"] (bHalf ["a", "b", "c"]) 1 0).player1 ≠ none ∧
    2 ^ ceilLog2 (3 : Nat) / 2 ≤ 3 :=
  have h := C10_round1_player1_nonempty "t" ["a", "b", "c"] (by decide)
  ⟨h.1 (rowAt "t" ["a", "b", "c"] (bHalf ["a", "b", "c"]) 1 0)
      (by decide) (by decide), h.2⟩

/-- C6: when the participant count is at least 2 and not a power of two,
every round-1 match with exactly one empty slot (the empty slot is always
`player2`) is created `completed` with the present participant as
`winner`, is never `scheduled`, and its winner is already propagated into
the designated slot of its successor in the bracket handed back by the
build. -/
theorem C6_round1_byes_completed_and_propagated (tid : String)
    (shuffled : List UserId) (h2 : 2 ≤ shuffled.length)
    (hnp : ∀ k, shuffled.length ≠ 2 ^ k) :
    ∀ m ∈ (generateBracket tid shuffled).matchRows,
      m.round = 1 → m.player1.isSome = true → m.player2 = none →
      m.status = MatchStatus.completed ∧ m.winner = m.player1 ∧
      m.status ≠ MatchStatus.scheduled ∧
      ∃ nid nm, m.nextMatchId = some nid ∧
        getMatch (generateBracket tid shuffled) nid = some nm ∧
        (m.nextMatchSlot = some Slot.player1 → nm.player1 = m.winner) ∧
        (m.nextMatchSlot = some Slot.player2 → nm.player2 = m.winner) := by
  intro m hm hr hp1 hp2
  rw [mem_generateBracket tid shuffled h2] at hm
  obtain ⟨t, j, ht, hj, rfl⟩ := hm
  rw [rowAt_round] at hr
  have ht0 : t = 0 := by omega
  subst ht0
  rw [rowAt_one_player2] at hp2
  have hst := rowAt_one_status tid shuffled (bHalf shuffled) j
  rw [hp2] at hst
  simp at hst
  have hwin := rowAt_one_winner tid shuffled (bHalf shuffled) j
  rw [hp2] at hwin
  simp at hwin
  have hpl1 := rowAt_one_player1 tid shuffled (bHalf shuffled) j
  have hnR2 : 2 ≤ nR shuffled := nR_ge_two_of_bye shuffled h2 j hp2
  have hlk := rowAt_one_linked tid shuffled (bHalf shuffled) j (by omega)
  have hbh := bHalf_eq shuffled h2
  have hjb : j < bHalf shuffled := by
    have hjx : j < 2 ^ (nR shuffled - 1 - 0) := hj
    simp only [Nat.sub_zero] at hjx
    omega
  have hbound : 2 ^ (nR shuffled - 1) = 2 * 2 ^ (nR shuffled - 2) := by
    conv_lhs => rw [show nR shuffled - 1 = (nR shuffled - 2) + 1 from by omega]
    rw [pow_succ]
    ring
  refine ⟨hst, ?_, ?_, ?_⟩
  · rw [hwin, hpl1]
  · rw [hst]
    intro hcon
    cases hcon
  · refine ⟨Nat.pair 2 (j / 2), rowAt tid shuffled (bHalf shuffled) 2 (j / 2),
      ?_, ?_, ?_, ?_⟩
    · rw [hlk]
      rfl
    · rw [generateBracket_eq tid shuffled h2]
      apply getMatch_stateAt tid shuffled (bHalf shuffled) 2 (j / 2)
        (by omega) (by omega)
      have he : nR shuffled - 1 - (2 - 1) = nR shuffled - 2 := by omega
      rw [he]
      omega
    · intro hsl
      rw [hlk] at hsl
      simp only [linkTo] at hsl
      have hls : linkSlot j = Slot.player1 := Option.some.inj hsl
      have hjev : j % 2 = 0 := by
        by_contra hodd
        unfold linkSlot at hls
        rw [if_neg hodd] at hls
        cases hls
      rw [rowAt_two_player1]
      have hde : 2 * (j / 2) = j := by omega
      rw [hde, byeFill_eq_some shuffled (bHalf shuffled) j hjb hp2, hwin]
    · intro hsl
      rw [hlk] at hsl
      simp only [linkTo] at hsl
      have hls : linkSlot j = Slot.player2 := Option.some.inj hsl
      have hjodd : ¬ j % 2 = 0 := by
        intro hev
        unfold linkSlot at hls
        rw [if_pos hev] at hls
        cases hls
      rw [rowAt_two_player2]
      have hde : 2 * (j / 2) + 1 = j := by omega
      rw [hde, byeFill_eq_some shuffled (bHalf shuffled) j hjb hp2, hwin]

/-- Witness for C6 at n = 3, on its round-1 bye match. -/
theorem C6_witness :
    (rowAt "t" ["a", "b", "c"] (bHalf ["a", "b", "c"]) 1 0).status =
      MatchStatus.completed ∧
    (rowAt "t" ["a", "b", "c"] (bHalf ["a", "b", "c"]) 1 0).winner =
      (rowAt "t" ["a", "b", "c"] (bHalf ["a", "b", "c"]) 1 0).player1 ∧
    (rowAt "t" ["a", "b", "c"] (bHalf ["a", "b", "c"]) 1 0).status ≠
      MatchStatus.scheduled ∧
    ∃ nid nm,
      (rowAt "t" ["a", "b", "c"] (bHalf ["a", "b", "c"]) 1 0).nextMatchId =
        some nid ∧
      getMatch (generateBracket "t" ["a", "b", "c"]) nid = some nm ∧
      ((rowAt "t" ["a", "b", "c"] (bHalf ["a", "b", "c"]) 1 0).nextMatchSlot =
        some Slot.player1 → nm.player1 =
          (rowAt "t" ["a", "b", "c"] (bHalf ["a", "b", "c"]) 1 0).winner) ∧
      ((rowAt "t" ["a", "b", "c"] (bHalf ["a", "b", "c"]) 1 0).nextMatchSlot =
        some Slot.player2 → nm.player2 =
          (rowAt "t" ["a", "b", "c"] (bHalf ["a", "b", "c"]) 1 0).winner) :=
  C6_round1_byes_completed_and_propagated "t" ["a", "b", "c"] (by decide)
    (by
      intro k
      match k with
      | 0 => decide
      | 1 => decide
      | (k + 2) =>
        intro h
        have h3 : (3 : Nat) = 2 ^ (k + 2) := h
        have h4 : (4 : Nat) ≤ 2 ^ (k + 2) := by
          calc (4 : Nat) = 2 ^ 2 := by norm_num
          _ ≤ 2 ^ (k + 2) := Nat.pow_le_pow_right (by norm_num) (by omega)
        omega)
    (rowAt "t" ["a", "b", "c"] (bHalf ["a", "b", "c"]) 1 0)
    (by decide) (by decide) (by decide) (by decide)
